import Mathlib

/-!
Shallow embedding of the Bitcoin feature-engineering core
(`src/services/feature_engineer.py` and `src/services/data_enricher.py`).

Prices are embedded as exact rationals.  Cells of a pandas Series are
embedded as `FV`: a finite rational, `+inf`, `-inf`, or `nan` (pandas uses
NaN both for missing values and as the result of 0/0).  The arithmetic on
`FV` mirrors IEEE-754 semantics for the operations the source actually
performs (addition, subtraction, multiplication, division, comparison,
clipping); the square root inside the rolling standard deviation is
modelled by `Rat.sqrt` (exact on perfect squares, a deterministic
approximation otherwise — no claim below depends on the value of a
standard deviation beyond its sign and its vanishing on constant windows).
-/

set_option maxRecDepth 8000

namespace BtcSpec

/-- Embedded float value: finite rational, plus/minus infinity, or NaN. -/
inductive FV where
  | fin (q : ℚ)
  | inf
  | ninf
  | nan
deriving DecidableEq, Repr, Inhabited

namespace FV

/-- Is this cell NaN (pandas "missing")? -/
def isNan : FV → Bool
  | nan => true
  | _ => false

/-- Is this cell a finite number? -/
def isFin : FV → Bool
  | fin _ => true
  | _ => false

/-- The finite value, when there is one. -/
def finPart : FV → Option ℚ
  | fin q => some q
  | _ => none

/-- IEEE-style addition. -/
def add : FV → FV → FV
  | nan, _ => nan
  | _, nan => nan
  | inf, ninf => nan
  | ninf, inf => nan
  | inf, _ => inf
  | _, inf => inf
  | ninf, _ => ninf
  | _, ninf => ninf
  | fin a, fin b => fin (a + b)

/-- IEEE-style negation. -/
def neg : FV → FV
  | fin q => fin (-q)
  | inf => ninf
  | ninf => inf
  | nan => nan

/-- IEEE-style subtraction. -/
def sub (a b : FV) : FV := add a (neg b)

/-- IEEE-style multiplication (`inf * 0 = nan`). -/
def mul : FV → FV → FV
  | nan, _ => nan
  | _, nan => nan
  | fin a, fin b => fin (a * b)
  | inf, fin b => if 0 < b then inf else if b < 0 then ninf else nan
  | fin a, inf => if 0 < a then inf else if a < 0 then ninf else nan
  | ninf, fin b => if 0 < b then ninf else if b < 0 then inf else nan
  | fin a, ninf => if 0 < a then ninf else if a < 0 then inf else nan
  | inf, inf => inf
  | ninf, ninf => inf
  | inf, ninf => ninf
  | ninf, inf => ninf

/-- IEEE-style division; finite/0 follows the sign of the numerator
(divisions in the source arise with a +0 denominator), 0/0 is NaN. -/
def div : FV → FV → FV
  | nan, _ => nan
  | _, nan => nan
  | fin a, fin b =>
      if b = 0 then (if a = 0 then nan else if 0 < a then inf else ninf)
      else fin (a / b)
  | fin _, inf => fin 0
  | fin _, ninf => fin 0
  | inf, fin b => if b < 0 then ninf else inf
  | ninf, fin b => if b < 0 then inf else ninf
  | inf, _ => nan
  | ninf, _ => nan

/-- IEEE-style strict comparison as a boolean; any comparison with NaN is false. -/
def ltB : FV → FV → Bool
  | fin a, fin b => decide (a < b)
  | fin _, inf => true
  | ninf, fin _ => true
  | ninf, inf => true
  | _, _ => false

/-- IEEE-style absolute value. -/
def fabs : FV → FV
  | fin q => fin |q|
  | inf => inf
  | ninf => inf
  | nan => nan

/-- `Series.clip(lo, hi)`: NaN passes through, infinities are clamped. -/
def clip (lo hi : ℚ) : FV → FV
  | fin q => fin (min hi (max lo q))
  | inf => fin hi
  | ninf => fin lo
  | nan => nan

/-- Binary maximum on non-NaN cells (NaN is filtered out before use). -/
def max2 : FV → FV → FV
  | nan, _ => nan
  | _, nan => nan
  | inf, _ => inf
  | _, inf => inf
  | ninf, x => x
  | x, ninf => x
  | fin a, fin b => fin (max a b)

/-- Binary minimum on non-NaN cells. -/
def min2 : FV → FV → FV
  | nan, _ => nan
  | _, nan => nan
  | ninf, _ => ninf
  | _, ninf => ninf
  | inf, x => x
  | x, inf => x
  | fin a, fin b => fin (min a b)

end FV

/-! ### Window aggregations

pandas rolling aggregations ignore NaN cells; `min_periods=1` means the
result is NaN exactly when no non-NaN observation is in the window.  The
rolling standard deviation uses `ddof=1`, so it is additionally NaN when
fewer than two observations are present. -/

/-- Rolling-mean aggregation over one window (`.rolling(w, min_periods=1).mean()`). -/
def meanAgg (l : List FV) : FV :=
  let vs := l.filter (fun v => !v.isNan)
  if vs.isEmpty then FV.nan
  else FV.div (vs.foldl FV.add (FV.fin 0)) (FV.fin vs.length)

/-- Rolling sample standard deviation over one window
(`.rolling(w, min_periods=1).std()`, `ddof = 1`); the float square root is
modelled by `Rat.sqrt`. -/
def stdAgg (l : List FV) : FV :=
  if l.any (fun v => v == FV.inf || v == FV.ninf) then FV.nan
  else
    let vs := l.filterMap FV.finPart
    if vs.length ≤ 1 then FV.nan
    else
      let n : ℚ := vs.length
      let m : ℚ := vs.sum / n
      FV.fin (Rat.sqrt ((vs.map (fun x => (x - m) ^ 2)).sum / (n - 1)))

/-- Rolling-minimum aggregation over one window. -/
def minAgg (l : List FV) : FV :=
  match l.filter (fun v => !v.isNan) with
  | [] => FV.nan
  | v :: vs => vs.foldl FV.min2 v

/-- Rolling-maximum aggregation over one window. -/
def maxAgg (l : List FV) : FV :=
  match l.filter (fun v => !v.isNan) with
  | [] => FV.nan
  | v :: vs => vs.foldl FV.max2 v

/-- Row-wise maximum of several cells, skipping NaN
(`pd.concat([...], axis=1).max(axis=1)`). -/
def maxSkipNa (l : List FV) : FV :=
  match l.filter (fun v => !v.isNan) with
  | [] => FV.nan
  | v :: vs => vs.foldl FV.max2 v

/-! ### Series combinators -/

/-- A series of length `n` given cell-wise. -/
def idxMap (n : ℕ) (f : ℕ → FV) : List FV := (List.range n).map f

/-- `Series.shift(k)`: cell `i` holds cell `i - k` of the input, NaN for the
first `k` rows. -/
def shiftL (k : ℕ) (xs : List FV) : List FV :=
  idxMap xs.length (fun i => if k ≤ i then xs.getD (i - k) FV.nan else FV.nan)

/-- `Series.diff(k)`: cell `i` holds `x i - x (i-k)`, NaN for the first `k` rows. -/
def diffL (k : ℕ) (xs : List FV) : List FV :=
  idxMap xs.length (fun i =>
    if k ≤ i then FV.sub (xs.getD i FV.nan) (xs.getD (i - k) FV.nan) else FV.nan)

/-- `Series.pct_change(k) * 100`: cell `i` holds `(x i / x (i-k) - 1) * 100`. -/
def pctL (k : ℕ) (xs : List FV) : List FV :=
  idxMap xs.length (fun i =>
    if k ≤ i then
      FV.mul (FV.sub (FV.div (xs.getD i FV.nan) (xs.getD (i - k) FV.nan)) (FV.fin 1))
        (FV.fin 100)
    else FV.nan)

/-- The trailing window of width `w` ending at row `i` (partial near the start,
matching `min_periods=1`). -/
def windowSlice {α : Type} (w : ℕ) (xs : List α) (i : ℕ) : List α :=
  (xs.take (i + 1)).drop (i + 1 - w)

/-- `Series.rolling(window := w, min_periods := 1)` followed by aggregation `agg`. -/
def rollL (agg : List FV → FV) (w : ℕ) (xs : List FV) : List FV :=
  idxMap xs.length (fun i => agg (windowSlice w xs i))

/-- The decay factor of `Series.ewm(span)`: `1 - 2/(span+1)`. -/
def ewmDecay (span : ℕ) : ℚ := ((span : ℚ) - 1) / ((span : ℚ) + 1)

/-- `Series.ewm(span).mean()` with the pandas defaults `adjust=True`,
`ignore_na=False`: cell `i` is the weighted mean of all finite cells `j ≤ i`
with weight `decay ^ (i - j)` (NaN when there is none; the inputs fed to it
in this pipeline are entirely finite). -/
def ewmaL (span : ℕ) (xs : List FV) : List FV :=
  let d := ewmDecay span
  idxMap xs.length (fun i =>
    let ws := (List.range (i + 1)).filterMap (fun j =>
      match xs.getD j FV.nan with
      | FV.fin q => some (d ^ (i - j), q)
      | _ => none)
    if ws.isEmpty then FV.nan
    else FV.fin ((ws.map (fun p => p.1 * p.2)).sum / (ws.map Prod.fst).sum))

/-! ### Calendar helpers for the temporal features

A timestamp is embedded as a whole number of minutes since the Unix epoch
(1970-01-01T00:00Z, a Thursday); the source normalizes timestamps to UTC
before extracting fields. -/

/-- `dt.minute` of a minutes-since-epoch timestamp. -/
def minuteOfHour (t : ℕ) : ℕ := t % 60

/-- `dt.hour`. -/
def hourOfDay (t : ℕ) : ℕ := t / 60 % 24

/-- `dt.dayofweek` (Monday = 0; the epoch day is a Thursday, index 3). -/
def dayOfWeek (t : ℕ) : ℕ := (t / 1440 + 3) % 7

/-- Gregorian leap-year test. -/
def isLeap (y : ℕ) : Bool := y % 4 == 0 && (y % 100 != 0 || y % 400 == 0)

/-- Days in year `y`. -/
def daysInYear (y : ℕ) : ℕ := if isLeap y then 366 else 365

/-- Resolve a day count (days since the epoch) into a year and a 0-based
day-of-year, scanning forward from 1970. -/
def yearOrdinal (y : ℕ) (d : ℕ) : ℕ × ℕ :=
  if _h : d < daysInYear y then (y, d)
  else yearOrdinal (y + 1) (d - daysInYear y)
termination_by d
decreasing_by
  have h365 : 365 ≤ daysInYear y := by unfold daysInYear; split <;> omega
  omega

/-- The `y → (y + y/4 - y/100 + y/400) mod 7` helper of the ISO-week-count rule. -/
def isoP (y : ℕ) : ℕ := (y + y / 4 + y / 400 - y / 100) % 7

/-- Number of ISO weeks (52 or 53) in year `y`. -/
def isoWeeksInYear (y : ℕ) : ℕ :=
  if isoP y = 4 ∨ isoP (y - 1) = 3 then 53 else 52

/-- `dt.isocalendar().week`: the ISO-8601 week number of a
minutes-since-epoch timestamp. -/
def weekOfYear (t : ℕ) : ℕ :=
  let days := t / 1440
  let yd := yearOrdinal 1970 days
  let ordinal : ℤ := (yd.2 : ℤ) + 1
  let isoDow : ℤ := ((days + 3) % 7 : ℕ) + 1
  let w : ℤ := (ordinal - isoDow + 10) / 7
  if w < 1 then isoWeeksInYear (yd.1 - 1)
  else if (isoWeeksInYear yd.1 : ℤ) < w then 1
  else w.toNat

/-! ### Technical indicators (`BitcoinFeatureEngineer`) -/

/-- `calculate_rsi`: simple rolling means of gains and losses,
`RSI = 100 - 100/(1 + gain/loss)`.  `Series.where(cond, 0)` turns the
leading NaN of `diff()` (and every cell failing `cond`) into `0`. -/
def calculate_rsi (prices : List FV) (period : ℕ) : List FV :=
  let delta := diffL 1 prices
  let gain := rollL meanAgg period
    (delta.map (fun v => if FV.ltB (FV.fin 0) v then v else FV.fin 0))
  let loss := rollL meanAgg period
    ((delta.map (fun v => if FV.ltB v (FV.fin 0) then v else FV.fin 0)).map FV.neg)
  let rs := List.zipWith FV.div gain loss
  rs.map (fun r => FV.sub (FV.fin 100) (FV.div (FV.fin 100) (FV.add (FV.fin 1) r)))

/-- `calculate_macd`: `(macd_line, macd_signal, macd_histogram)`. -/
def calculate_macd (prices : List FV) (fast slow sig : ℕ) :
    List FV × List FV × List FV :=
  let ema_fast := ewmaL fast prices
  let ema_slow := ewmaL slow prices
  let macd_line := List.zipWith FV.sub ema_fast ema_slow
  let macd_signal := ewmaL sig macd_line
  (macd_line, macd_signal, List.zipWith FV.sub macd_line macd_signal)

/-- The five series returned by `calculate_bollinger_bands`. -/
structure BBands where
  bb_upper : List FV
  bb_middle : List FV
  bb_lower : List FV
  bb_width : List FV
  bb_position : List FV

/-- `calculate_bollinger_bands`: bands at `mean ± std * std_dev`;
`bb_position = ((price - lower)/(upper - lower)).clip(0, 1)` with no
flat-window guard, so a zero-width window makes the division `0/0`. -/
def calculate_bollinger_bands (prices : List FV) (period : ℕ) (std_dev : ℚ) : BBands :=
  let rolling_mean := rollL meanAgg period prices
  let rolling_std := rollL stdAgg period prices
  let upper_band :=
    List.zipWith FV.add rolling_mean (rolling_std.map (fun s => FV.mul s (FV.fin std_dev)))
  let lower_band :=
    List.zipWith FV.sub rolling_mean (rolling_std.map (fun s => FV.mul s (FV.fin std_dev)))
  let bb_width := List.zipWith FV.sub upper_band lower_band
  let bb_position :=
    (List.zipWith FV.div (List.zipWith FV.sub prices lower_band)
      (List.zipWith FV.sub upper_band lower_band)).map (FV.clip 0 1)
  ⟨upper_band, rolling_mean, lower_band, bb_width, bb_position⟩

/-- `calculate_atr`: rolling mean of the true range
`max(high-low, |high-close₋₁|, |low-close₋₁|)` (row-wise max skips NaN). -/
def calculate_atr (high low close : List FV) (period : ℕ) : List FV :=
  let tr1 := List.zipWith FV.sub high low
  let tr2 := (List.zipWith FV.sub high (shiftL 1 close)).map FV.fabs
  let tr3 := (List.zipWith FV.sub low (shiftL 1 close)).map FV.fabs
  let true_range :=
    List.zipWith (fun p c => maxSkipNa [p.1, p.2, c]) (List.zip tr1 tr2) tr3
  rollL meanAgg period true_range

/-- `calculate_stochastic`: `(%K, %D)`. -/
def calculate_stochastic (high low close : List FV) (k_period d_period : ℕ) :
    List FV × List FV :=
  let lowest_low := rollL minAgg k_period low
  let highest_high := rollL maxAgg k_period high
  let k_percent :=
    (List.zipWith FV.div (List.zipWith FV.sub close lowest_low)
      (List.zipWith FV.sub highest_high lowest_low)).map (fun v => FV.mul (FV.fin 100) v)
  let d_percent := rollL meanAgg d_period k_percent
  (k_percent, d_percent)

/-- `normalize_features`' use of a freshly fitted `MinMaxScaler` over the
whole batch: `(x - min) / (max - min)`, where scikit-learn replaces a zero
range by 1 (so a constant batch maps to 0). -/
def minMaxColumn (ps : List ℚ) : List FV :=
  match ps with
  | [] => []
  | p :: rest =>
      let lo := rest.foldl min p
      let hi := rest.foldl max p
      (p :: rest).map (fun x =>
        FV.fin (if hi = lo then x - lo else (x - lo) / (hi - lo)))

/-! ### The enriched frame -/

/-- One row of raw input: a price point (the dict the enricher builds from a
`BitcoinPrice` record). -/
structure PricePoint where
  price : ℚ
  timestamp : ℕ
  source : String
deriving DecidableEq, Repr, Inhabited

/-- Ordering by timestamp, the key of `df.sort_values('timestamp')`. -/
def tsLe (p q : PricePoint) : Prop := p.timestamp ≤ q.timestamp

instance : DecidableRel tsLe := fun p q => Nat.decLe p.timestamp q.timestamp

instance : IsTotal PricePoint tsLe := ⟨fun p q => Nat.le_total p.timestamp q.timestamp⟩

instance : IsTrans PricePoint tsLe := ⟨fun _ _ _ h h' => Nat.le_trans h h'⟩

/-- `df.sort_values('timestamp')`, modelled as a stable sort by timestamp.
(pandas defaults to numpy's quicksort; on inputs without duplicate
timestamps — the documented input contract — every comparison sort agrees
with the stable one.) -/
def sortByTimestamp (l : List PricePoint) : List PricePoint :=
  List.insertionSort tsLe l

/-- The enriched DataFrame: the sorted rows plus the feature columns, each a
series aligned with the rows, in creation order. -/
structure Frame where
  rows : List PricePoint
  cols : List (String × List FV)

/-- Column names of the enriched DataFrame (the three raw input columns
followed by the engineered columns). -/
def Frame.colNames (f : Frame) : List String :=
  ["price", "timestamp", "source"] ++ f.cols.map Prod.fst

/-- A feature column by name. -/
def Frame.getCol (f : Frame) (c : String) : List FV :=
  (List.lookup c f.cols).getD []

/-- The value of feature `c` at row `i`. -/
def Frame.valAt (f : Frame) (c : String) (i : ℕ) : FV :=
  (f.getCol c).getD i FV.nan

/-- `engineer_all_features`: sort by timestamp, then apply every transform in
pipeline order.  Column list and order follow the source exactly. -/
def engineer_all_features (input : List PricePoint) : Frame :=
  let rows := sortByTimestamp input
  let prices : List FV := rows.map (fun p => FV.fin p.price)
  let times : List ℕ := rows.map (fun p => p.timestamp)
  let macd := calculate_macd prices 12 26 9
  let bb := calculate_bollinger_bands prices 20 2
  let stoch := calculate_stochastic prices prices prices 14 3
  ⟨rows,
    [("minute_of_hour", times.map (fun t => FV.fin (minuteOfHour t))),
     ("hour_of_day", times.map (fun t => FV.fin (hourOfDay t))),
     ("day_of_week", times.map (fun t => FV.fin (dayOfWeek t))),
     ("week_of_year", times.map (fun t => FV.fin (weekOfYear t))),
     ("price_lag_1min", shiftL 1 prices),
     ("price_lag_5min", shiftL 5 prices),
     ("price_lag_15min", shiftL 15 prices),
     ("price_lag_30min", shiftL 30 prices),
     ("price_lag_60min", shiftL 60 prices),
     ("rolling_mean_5min", rollL meanAgg 5 prices),
     ("rolling_mean_15min", rollL meanAgg 15 prices),
     ("rolling_mean_30min", rollL meanAgg 30 prices),
     ("rolling_mean_60min", rollL meanAgg 60 prices),
     ("rolling_std_5min", rollL stdAgg 5 prices),
     ("rolling_std_15min", rollL stdAgg 15 prices),
     ("rolling_std_30min", rollL stdAgg 30 prices),
     ("rolling_std_60min", rollL stdAgg 60 prices),
     ("rolling_min_30min", rollL minAgg 30 prices),
     ("rolling_max_30min", rollL maxAgg 30 prices),
     ("rsi_14", calculate_rsi prices 14),
     ("macd_line", macd.1),
     ("macd_signal", macd.2.1),
     ("macd_histogram", macd.2.2),
     ("bb_upper", bb.bb_upper),
     ("bb_middle", bb.bb_middle),
     ("bb_lower", bb.bb_lower),
     ("bb_width", bb.bb_width),
     ("bb_position", bb.bb_position),
     ("atr_14", calculate_atr prices prices prices 14),
     ("stoch_k", stoch.1),
     ("stoch_d", stoch.2),
     ("price_change_1min", diffL 1 prices),
     ("price_change_5min", diffL 5 prices),
     ("price_change_15min", diffL 15 prices),
     ("price_change_pct_1min", pctL 1 prices),
     ("price_change_pct_5min", pctL 5 prices),
     ("price_change_pct_15min", pctL 15 prices),
     ("volatility_30min", rollL stdAgg 30 prices),
     ("momentum_5min", List.zipWith FV.sub prices (shiftL 5 prices)),
     ("momentum_15min", List.zipWith FV.sub prices (shiftL 15 prices)),
     ("momentum_30min", List.zipWith FV.sub prices (shiftL 30 prices)),
     ("price_normalized", minMaxColumn (rows.map (fun p => p.price))),
     ("volume_normalized", List.replicate rows.length (FV.fin 0))]⟩

/-- `get_feature_columns`: the canonical ordered feature-name registry. -/
def get_feature_columns : List String :=
  ["minute_of_hour", "hour_of_day", "day_of_week", "week_of_year",
   "price_lag_1min", "price_lag_5min", "price_lag_15min", "price_lag_30min",
   "price_lag_60min",
   "rolling_mean_5min", "rolling_mean_15min", "rolling_mean_30min",
   "rolling_mean_60min",
   "rolling_std_5min", "rolling_std_15min", "rolling_std_30min",
   "rolling_std_60min",
   "rolling_min_30min", "rolling_max_30min",
   "rsi_14", "macd_line", "macd_signal", "macd_histogram",
   "bb_upper", "bb_middle", "bb_lower", "bb_width", "bb_position",
   "atr_14", "stoch_k", "stoch_d",
   "price_change_1min", "price_change_5min", "price_change_15min",
   "price_change_pct_1min", "price_change_pct_5min", "price_change_pct_15min",
   "volatility_30min",
   "momentum_5min", "momentum_15min", "momentum_30min",
   "price_normalized", "volume_normalized"]

/-! ### The enrichment coordinator (`DataEnricher`) -/

/-- The enriched record built by `prepare_enriched_record` from one row:
the raw fields plus every feature cell (NaN cells become SQL NULLs there;
we keep the cell itself). -/
structure Rec where
  price : ℚ
  timestamp : ℕ
  source : String
  feats : String → FV

instance : Inhabited Rec := ⟨⟨0, 0, "", fun _ => FV.nan⟩⟩

/-- `prepare_enriched_record` applied to row `i` of an enriched frame. -/
def prepare_enriched_record (f : Frame) (i : ℕ) : Rec :=
  ⟨(f.rows.getD i default).price,
   (f.rows.getD i default).timestamp,
   (f.rows.getD i default).source,
   fun c => f.valAt c i⟩

/-- `enrich_single_record`: load the 100 most recent price points
(`ORDER BY timestamp DESC LIMIT 100`, modelled over the table's rows sorted
by timestamp), bail out with `None` when none exist, otherwise re-reverse to
chronological order, append the new point, run `engineer_all_features`, and
return the last row. -/
def enrich_single_record (table : List PricePoint) (price : ℚ) (timestamp : ℕ)
    (source : String) : Option Rec :=
  let recent_data := ((sortByTimestamp table).reverse.take 100)
  if recent_data.isEmpty then none
  else
    let data := recent_data.reverse ++ [⟨price, timestamp, source⟩]
    let enriched := engineer_all_features data
    some (prepare_enriched_record enriched (enriched.rows.length - 1))

/-! ## Basic lemmas about the combinators -/

lemma length_idxMap (n : ℕ) (f : ℕ → FV) : (idxMap n f).length = n := by
  simp [idxMap]

lemma getD_idxMap (n : ℕ) (f : ℕ → FV) {i : ℕ} (h : i < n) (d : FV) :
    (idxMap n f).getD i d = f i := by
  simp [idxMap, List.getD, List.getElem?_map, List.getElem?_range, h]

lemma windowSlice_map {α β : Type} (g : α → β) (w i : ℕ) (xs : List α) :
    windowSlice w (xs.map g) i = (windowSlice w xs i).map g := by
  simp [windowSlice, List.map_take, List.map_drop]

lemma windowSlice_length {α : Type} (w i : ℕ) (xs : List α) (h : i < xs.length) :
    (windowSlice w xs i).length = min w (i + 1) := by
  simp only [windowSlice, List.length_drop, List.length_take]
  omega

lemma windowSlice_ne_nil {α : Type} (w i : ℕ) (xs : List α) (hw : 1 ≤ w)
    (h : i < xs.length) : windowSlice w xs i ≠ [] := by
  intro hnil
  have := windowSlice_length w i xs h
  rw [hnil] at this
  simp at this
  omega

lemma fin_beq_inf (q : ℚ) : (FV.fin q == FV.inf) = false := rfl

lemma fin_beq_ninf (q : ℚ) : (FV.fin q == FV.ninf) = false := rfl

lemma filter_notNan_map_fin (qs : List ℚ) :
    (qs.map FV.fin).filter (fun v => !v.isNan) = qs.map FV.fin := by
  induction qs with
  | nil => rfl
  | cons x xs ih => simp [FV.isNan, ih]

lemma filterMap_finPart_map_fin (qs : List ℚ) :
    (qs.map FV.fin).filterMap FV.finPart = qs := by
  induction qs with
  | nil => rfl
  | cons x xs ih => simp [FV.finPart, ih]

lemma filterMap_finPart_comp (qs : List ℚ) :
    List.filterMap (FV.finPart ∘ FV.fin) qs = qs := by
  induction qs with
  | nil => rfl
  | cons x xs ih => simp [FV.finPart, Function.comp, ih]

lemma any_inf_map_fin (qs : List ℚ) :
    ((qs.map FV.fin).any (fun v => v == FV.inf || v == FV.ninf)) = false := by
  induction qs with
  | nil => rfl
  | cons x xs ih => simp [fin_beq_inf, fin_beq_ninf, ih]

lemma foldl_add_fin (qs : List ℚ) (a : ℚ) :
    (qs.map FV.fin).foldl FV.add (FV.fin a) = FV.fin (a + qs.sum) := by
  induction qs generalizing a with
  | nil => simp
  | cons x xs ih => simp [FV.add, ih, add_assoc]

lemma meanAgg_map_fin (qs : List ℚ) (h : qs ≠ []) :
    meanAgg (qs.map FV.fin) = FV.fin (qs.sum / qs.length) := by
  have hne : ((qs.map FV.fin).isEmpty) = false := by
    cases qs with
    | nil => exact absurd rfl h
    | cons x xs => rfl
  have hlen : ((qs.length : ℚ)) ≠ 0 := by
    have : qs.length ≠ 0 := by simpa using h
    exact_mod_cast this
  simp only [meanAgg, filter_notNan_map_fin, hne, Bool.false_eq_true, if_false,
    foldl_add_fin, zero_add, List.length_map]
  simp [FV.div, hlen]

lemma stdAgg_map_fin_short (qs : List ℚ) (h : qs.length ≤ 1) :
    stdAgg (qs.map FV.fin) = FV.nan := by
  simp [stdAgg, any_inf_map_fin, filterMap_finPart_map_fin, filterMap_finPart_comp, h]

lemma stdAgg_map_fin_long (qs : List ℚ) (h : 2 ≤ qs.length) :
    stdAgg (qs.map FV.fin) =
      FV.fin (Rat.sqrt
        ((qs.map (fun x => (x - qs.sum / qs.length) ^ 2)).sum / ((qs.length : ℚ) - 1))) := by
  have h' : ¬ qs.length ≤ 1 := by omega
  simp [stdAgg, any_inf_map_fin, filterMap_finPart_map_fin, filterMap_finPart_comp, h']

lemma stdAgg_fin_nonneg (l : List FV) (s : ℚ) (h : stdAgg l = FV.fin s) : 0 ≤ s := by
  simp only [stdAgg] at h
  split at h
  · exact absurd h (by simp)
  · split at h
    · exact absurd h (by simp)
    · injection h with h'
      rw [← h']
      exact Rat.sqrt_nonneg _

lemma foldl_min2_fin (qs : List ℚ) (a : ℚ) :
    (qs.map FV.fin).foldl FV.min2 (FV.fin a) = FV.fin (qs.foldl min a) := by
  induction qs generalizing a with
  | nil => rfl
  | cons x xs ih => simp [FV.min2, ih]

lemma foldl_max2_fin (qs : List ℚ) (a : ℚ) :
    (qs.map FV.fin).foldl FV.max2 (FV.fin a) = FV.fin (qs.foldl max a) := by
  induction qs generalizing a with
  | nil => rfl
  | cons x xs ih => simp [FV.max2, ih]

lemma minAgg_map_fin (x : ℚ) (rest : List ℚ) :
    minAgg ((x :: rest).map FV.fin) = FV.fin (rest.foldl min x) := by
  have hf : List.filter (fun v => !v.isNan) (FV.fin x :: rest.map FV.fin) =
      FV.fin x :: rest.map FV.fin := by
    simpa using filter_notNan_map_fin (x :: rest)
  simp only [minAgg, List.map_cons, hf]
  exact foldl_min2_fin rest x

lemma maxAgg_map_fin (x : ℚ) (rest : List ℚ) :
    maxAgg ((x :: rest).map FV.fin) = FV.fin (rest.foldl max x) := by
  have hf : List.filter (fun v => !v.isNan) (FV.fin x :: rest.map FV.fin) =
      FV.fin x :: rest.map FV.fin := by
    simpa using filter_notNan_map_fin (x :: rest)
  simp only [maxAgg, List.map_cons, hf]
  exact foldl_max2_fin rest x

/-! ## The columns of the enriched frame -/

/-- The sorted price series of the enriched frame, as cells. -/
def framePrices (input : List PricePoint) : List FV :=
  (sortByTimestamp input).map (fun p => FV.fin p.price)

/-- The sorted price series, as rationals. -/
def rawPrices (input : List PricePoint) : List ℚ :=
  (sortByTimestamp input).map PricePoint.price

/-- The sorted timestamp series. -/
def frameTimes (input : List PricePoint) : List ℕ :=
  (sortByTimestamp input).map (fun p => p.timestamp)

lemma framePrices_eq (input : List PricePoint) :
    framePrices input = (rawPrices input).map FV.fin := by
  simp [framePrices, rawPrices, List.map_map, Function.comp]

lemma length_rawPrices (input : List PricePoint) :
    (rawPrices input).length = (engineer_all_features input).rows.length := by
  simp [rawPrices, engineer_all_features]

lemma col_minute_of_hour (input : List PricePoint) :
    (engineer_all_features input).getCol "minute_of_hour" =
      (frameTimes input).map (fun t => FV.fin (minuteOfHour t)) := rfl

lemma col_hour_of_day (input : List PricePoint) :
    (engineer_all_features input).getCol "hour_of_day" =
      (frameTimes input).map (fun t => FV.fin (hourOfDay t)) := rfl

lemma col_day_of_week (input : List PricePoint) :
    (engineer_all_features input).getCol "day_of_week" =
      (frameTimes input).map (fun t => FV.fin (dayOfWeek t)) := rfl

lemma col_week_of_year (input : List PricePoint) :
    (engineer_all_features input).getCol "week_of_year" =
      (frameTimes input).map (fun t => FV.fin (weekOfYear t)) := rfl

lemma col_price_lag_1min (input : List PricePoint) :
    (engineer_all_features input).getCol "price_lag_1min" =
      shiftL 1 (framePrices input) := rfl

lemma col_price_lag_5min (input : List PricePoint) :
    (engineer_all_features input).getCol "price_lag_5min" =
      shiftL 5 (framePrices input) := rfl

lemma col_price_lag_15min (input : List PricePoint) :
    (engineer_all_features input).getCol "price_lag_15min" =
      shiftL 15 (framePrices input) := rfl

lemma col_price_lag_30min (input : List PricePoint) :
    (engineer_all_features input).getCol "price_lag_30min" =
      shiftL 30 (framePrices input) := rfl

lemma col_price_lag_60min (input : List PricePoint) :
    (engineer_all_features input).getCol "price_lag_60min" =
      shiftL 60 (framePrices input) := rfl

lemma col_rolling_mean_5min (input : List PricePoint) :
    (engineer_all_features input).getCol "rolling_mean_5min" =
      rollL meanAgg 5 (framePrices input) := rfl

lemma col_rolling_mean_15min (input : List PricePoint) :
    (engineer_all_features input).getCol "rolling_mean_15min" =
      rollL meanAgg 15 (framePrices input) := rfl

lemma col_rolling_mean_30min (input : List PricePoint) :
    (engineer_all_features input).getCol "rolling_mean_30min" =
      rollL meanAgg 30 (framePrices input) := rfl

lemma col_rolling_mean_60min (input : List PricePoint) :
    (engineer_all_features input).getCol "rolling_mean_60min" =
      rollL meanAgg 60 (framePrices input) := rfl

lemma col_rolling_std_5min (input : List PricePoint) :
    (engineer_all_features input).getCol "rolling_std_5min" =
      rollL stdAgg 5 (framePrices input) := rfl

lemma col_rolling_std_15min (input : List PricePoint) :
    (engineer_all_features input).getCol "rolling_std_15min" =
      rollL stdAgg 15 (framePrices input) := rfl

lemma col_rolling_std_30min (input : List PricePoint) :
    (engineer_all_features input).getCol "rolling_std_30min" =
      rollL stdAgg 30 (framePrices input) := rfl

lemma col_rolling_std_60min (input : List PricePoint) :
    (engineer_all_features input).getCol "rolling_std_60min" =
      rollL stdAgg 60 (framePrices input) := rfl

lemma col_rolling_min_30min (input : List PricePoint) :
    (engineer_all_features input).getCol "rolling_min_30min" =
      rollL minAgg 30 (framePrices input) := rfl

lemma col_rolling_max_30min (input : List PricePoint) :
    (engineer_all_features input).getCol "rolling_max_30min" =
      rollL maxAgg 30 (framePrices input) := rfl

lemma col_rsi_14 (input : List PricePoint) :
    (engineer_all_features input).getCol "rsi_14" =
      calculate_rsi (framePrices input) 14 := rfl

lemma col_macd_line (input : List PricePoint) :
    (engineer_all_features input).getCol "macd_line" =
      (calculate_macd (framePrices input) 12 26 9).1 := rfl

lemma col_macd_signal (input : List PricePoint) :
    (engineer_all_features input).getCol "macd_signal" =
      (calculate_macd (framePrices input) 12 26 9).2.1 := rfl

lemma col_macd_histogram (input : List PricePoint) :
    (engineer_all_features input).getCol "macd_histogram" =
      (calculate_macd (framePrices input) 12 26 9).2.2 := rfl

lemma col_bb_upper (input : List PricePoint) :
    (engineer_all_features input).getCol "bb_upper" =
      (calculate_bollinger_bands (framePrices input) 20 2).bb_upper := rfl

lemma col_bb_middle (input : List PricePoint) :
    (engineer_all_features input).getCol "bb_middle" =
      (calculate_bollinger_bands (framePrices input) 20 2).bb_middle := rfl

lemma col_bb_lower (input : List PricePoint) :
    (engineer_all_features input).getCol "bb_lower" =
      (calculate_bollinger_bands (framePrices input) 20 2).bb_lower := rfl

lemma col_bb_width (input : List PricePoint) :
    (engineer_all_features input).getCol "bb_width" =
      (calculate_bollinger_bands (framePrices input) 20 2).bb_width := rfl

lemma col_bb_position (input : List PricePoint) :
    (engineer_all_features input).getCol "bb_position" =
      (calculate_bollinger_bands (framePrices input) 20 2).bb_position := rfl

lemma col_atr_14 (input : List PricePoint) :
    (engineer_all_features input).getCol "atr_14" =
      calculate_atr (framePrices input) (framePrices input) (framePrices input) 14 := rfl

lemma col_stoch_k (input : List PricePoint) :
    (engineer_all_features input).getCol "stoch_k" =
      (calculate_stochastic (framePrices input) (framePrices input) (framePrices input) 14 3).1 := rfl

lemma col_stoch_d (input : List PricePoint) :
    (engineer_all_features input).getCol "stoch_d" =
      (calculate_stochastic (framePrices input) (framePrices input) (framePrices input) 14 3).2 := rfl

lemma col_price_change_1min (input : List PricePoint) :
    (engineer_all_features input).getCol "price_change_1min" =
      diffL 1 (framePrices input) := rfl

lemma col_price_change_5min (input : List PricePoint) :
    (engineer_all_features input).getCol "price_change_5min" =
      diffL 5 (framePrices input) := rfl

lemma col_price_change_15min (input : List PricePoint) :
    (engineer_all_features input).getCol "price_change_15min" =
      diffL 15 (framePrices input) := rfl

lemma col_price_change_pct_1min (input : List PricePoint) :
    (engineer_all_features input).getCol "price_change_pct_1min" =
      pctL 1 (framePrices input) := rfl

lemma col_price_change_pct_5min (input : List PricePoint) :
    (engineer_all_features input).getCol "price_change_pct_5min" =
      pctL 5 (framePrices input) := rfl

lemma col_price_change_pct_15min (input : List PricePoint) :
    (engineer_all_features input).getCol "price_change_pct_15min" =
      pctL 15 (framePrices input) := rfl

lemma col_volatility_30min (input : List PricePoint) :
    (engineer_all_features input).getCol "volatility_30min" =
      rollL stdAgg 30 (framePrices input) := rfl

lemma col_momentum_5min (input : List PricePoint) :
    (engineer_all_features input).getCol "momentum_5min" =
      List.zipWith FV.sub (framePrices input) (shiftL 5 (framePrices input)) := rfl

lemma col_momentum_15min (input : List PricePoint) :
    (engineer_all_features input).getCol "momentum_15min" =
      List.zipWith FV.sub (framePrices input) (shiftL 15 (framePrices input)) := rfl

lemma col_momentum_30min (input : List PricePoint) :
    (engineer_all_features input).getCol "momentum_30min" =
      List.zipWith FV.sub (framePrices input) (shiftL 30 (framePrices input)) := rfl

lemma col_price_normalized (input : List PricePoint) :
    (engineer_all_features input).getCol "price_normalized" =
      minMaxColumn (rawPrices input) := rfl

lemma col_volume_normalized (input : List PricePoint) :
    (engineer_all_features input).getCol "volume_normalized" =
      List.replicate (sortByTimestamp input).length (FV.fin 0) := rfl

lemma rollL_getD (agg : List FV → FV) (w : ℕ) (xs : List FV) {i : ℕ}
    (h : i < xs.length) : (rollL agg w xs).getD i FV.nan = agg (windowSlice w xs i) := by
  unfold rollL
  exact getD_idxMap _ _ h _

/-! ## C9 -/

/-- C9: `get_feature_columns` is a fixed constant list, the engineered frame's
feature columns are exactly that list (same names, same order) for every
input, and hence every registered name appears among the output frame's
columns; the incremental record exposes the same valuation (its `feats`
field reads the same frame). -/
theorem c9_feature_registry (input : List PricePoint) :
    (engineer_all_features input).cols.map Prod.fst = get_feature_columns ∧
    ∀ c, c ∈ get_feature_columns → c ∈ (engineer_all_features input).colNames := by
  refine ⟨rfl, fun c hc => ?_⟩
  have hmem : c ∈ (engineer_all_features input).cols.map Prod.fst := hc
  unfold Frame.colNames
  exact List.mem_append_right _ hmem

/-- C9 witness: at the concrete empty input, the column names equal the
registry and a sample registered name occurs among the frame columns. -/
theorem c9_feature_registry_witness :
    (engineer_all_features ([] : List PricePoint)).cols.map Prod.fst
        = get_feature_columns ∧
    "rsi_14" ∈ (engineer_all_features ([] : List PricePoint)).colNames :=
  ⟨(c9_feature_registry []).1, (c9_feature_registry []).2 "rsi_14" (by decide)⟩

/-! ## C5 -/

/-- C5 counterexample: on an input with a duplicated timestamp the pipeline
returns normally (no rejection is modelled because none exists in the code)
and the output rows still carry the duplicate timestamp twice. -/
theorem c5_counterexample :
    ((engineer_all_features [⟨1, 0, "a"⟩, ⟨2, 0, "b"⟩]).rows.map
        PricePoint.timestamp = [0, 0]) ∧
    ¬ ((engineer_all_features [⟨1, 0, "a"⟩, ⟨2, 0, "b"⟩]).rows.map
        PricePoint.timestamp).Nodup := by
  decide

/-- C5 as amended: `engineer_all_features` always returns its input sorted
ascending by timestamp as a permutation of the input — every row is kept, so
duplicate timestamps are retained and nothing is rejected. -/
theorem c5_sorted_not_deduped (input : List PricePoint) :
    List.Sorted tsLe (engineer_all_features input).rows ∧
    List.Perm (engineer_all_features input).rows input :=
  ⟨List.sorted_insertionSort tsLe input, List.perm_insertionSort tsLe input⟩

/-! ## C3 -/

/-- C3 counterexample: with a single trailing context point — far fewer than
60 — `enrich_single_record` still succeeds and returns a record. -/
theorem c3_counterexample :
    (([⟨100, 0, "binance"⟩] : List PricePoint).length < 60) ∧
    (enrich_single_record [⟨100, 0, "binance"⟩] 101 1 "binance").isSome = true :=
  ⟨by decide, rfl⟩

/-- C3 as amended: the only precondition `enrich_single_record` enforces is
non-emptiness of the stored history; it succeeds if and only if at least one
trailing point exists. -/
theorem c3_succeeds_iff_nonempty (table : List PricePoint) (p : ℚ) (t : ℕ)
    (s : String) :
    (enrich_single_record table p t s).isSome = true ↔ table ≠ [] := by
  unfold enrich_single_record
  by_cases h : table = []
  · subst h
    simp [sortByTimestamp, List.insertionSort]
  · have hlen : (sortByTimestamp table).length = table.length :=
      List.length_insertionSort tsLe table
    have hsortne : sortByTimestamp table ≠ [] := by
      intro hnil
      rw [hnil] at hlen
      exact h (List.length_eq_zero.mp hlen.symm)
    have htake : ((sortByTimestamp table).reverse.take 100) ≠ [] := by
      intro hnil
      rcases List.take_eq_nil_iff.mp hnil with h100 | hrev
      · exact absurd h100 (by norm_num)
      · exact hsortne (List.reverse_eq_nil_iff.mp hrev)
    have hne : ((sortByTimestamp table).reverse.take 100).isEmpty = false := by
      rw [List.isEmpty_eq_false]
      exact htake
    simp only [hne, Bool.false_eq_true, if_false, Option.isSome_some]
    simpa using h

/-! ## C6 -/

lemma rollMean_isFin (w i : ℕ) (qs : List ℚ) (hw : 1 ≤ w) (h : i < qs.length) :
    ((rollL meanAgg w (qs.map FV.fin)).getD i FV.nan).isFin = true := by
  rw [rollL_getD _ _ _ (by simpa using h), windowSlice_map,
    meanAgg_map_fin _ (windowSlice_ne_nil w i qs hw h)]
  rfl

lemma rollMin_isFin (w i : ℕ) (qs : List ℚ) (hw : 1 ≤ w) (h : i < qs.length) :
    ((rollL minAgg w (qs.map FV.fin)).getD i FV.nan).isFin = true := by
  rw [rollL_getD _ _ _ (by simpa using h), windowSlice_map]
  rcases List.exists_cons_of_ne_nil (windowSlice_ne_nil w i qs hw h) with ⟨x, rest, hx⟩
  rw [hx, minAgg_map_fin]
  rfl

lemma rollMax_isFin (w i : ℕ) (qs : List ℚ) (hw : 1 ≤ w) (h : i < qs.length) :
    ((rollL maxAgg w (qs.map FV.fin)).getD i FV.nan).isFin = true := by
  rw [rollL_getD _ _ _ (by simpa using h), windowSlice_map]
  rcases List.exists_cons_of_ne_nil (windowSlice_ne_nil w i qs hw h) with ⟨x, rest, hx⟩
  rw [hx, maxAgg_map_fin]
  rfl

lemma rollStd_row0 (w : ℕ) (qs : List ℚ) :
    (rollL stdAgg w (qs.map FV.fin)).getD 0 FV.nan = FV.nan := by
  cases qs with
  | nil => rfl
  | cons x rest =>
      rw [rollL_getD _ _ _ (by simp), windowSlice_map, stdAgg_map_fin_short]
      have := windowSlice_length w 0 (x :: rest) (by simp)
      omega

lemma rollStd_isFin (w i : ℕ) (qs : List ℚ) (hw : 2 ≤ w) (h1 : 1 ≤ i)
    (h : i < qs.length) :
    ((rollL stdAgg w (qs.map FV.fin)).getD i FV.nan).isFin = true := by
  rw [rollL_getD _ _ _ (by simpa using h), windowSlice_map, stdAgg_map_fin_long]
  · rfl
  · have := windowSlice_length w i qs h
    omega

/-- C6 as amended: over any input, the rolling mean/min/max columns are
defined (finite) at every in-range row from the very first onward, but the
rolling standard deviation columns (`ddof = 1`) are NaN at row 0 and defined
only from row 1 onward.  This refutes the claim's "including the rolling std
columns at row 0" (see `c6_counterexample`). -/
theorem c6_partial_windows (input : List PricePoint) (i : ℕ)
    (h : i < (engineer_all_features input).rows.length) :
    (∀ c, c ∈ ["rolling_mean_5min", "rolling_mean_15min", "rolling_mean_30min",
        "rolling_mean_60min", "rolling_min_30min", "rolling_max_30min"] →
      ((engineer_all_features input).valAt c i).isFin = true) ∧
    (∀ c, c ∈ ["rolling_std_5min", "rolling_std_15min", "rolling_std_30min",
        "rolling_std_60min"] →
      (engineer_all_features input).valAt c 0 = FV.nan ∧
      (1 ≤ i → ((engineer_all_features input).valAt c i).isFin = true)) := by
  have hq : i < (rawPrices input).length := by rw [length_rawPrices]; exact h
  constructor
  · intro c hc
    simp only [List.mem_cons, List.not_mem_nil, or_false] at hc
    rcases hc with rfl | rfl | rfl | rfl | rfl | rfl
    · rw [Frame.valAt, col_rolling_mean_5min, framePrices_eq]
      exact rollMean_isFin 5 i _ (by norm_num) hq
    · rw [Frame.valAt, col_rolling_mean_15min, framePrices_eq]
      exact rollMean_isFin 15 i _ (by norm_num) hq
    · rw [Frame.valAt, col_rolling_mean_30min, framePrices_eq]
      exact rollMean_isFin 30 i _ (by norm_num) hq
    · rw [Frame.valAt, col_rolling_mean_60min, framePrices_eq]
      exact rollMean_isFin 60 i _ (by norm_num) hq
    · rw [Frame.valAt, col_rolling_min_30min, framePrices_eq]
      exact rollMin_isFin 30 i _ (by norm_num) hq
    · rw [Frame.valAt, col_rolling_max_30min, framePrices_eq]
      exact rollMax_isFin 30 i _ (by norm_num) hq
  · intro c hc
    simp only [List.mem_cons, List.not_mem_nil, or_false] at hc
    rcases hc with rfl | rfl | rfl | rfl
    · simp only [Frame.valAt, col_rolling_std_5min, framePrices_eq]
      exact ⟨rollStd_row0 5 _, fun h1 => rollStd_isFin 5 i _ (by norm_num) h1 hq⟩
    · simp only [Frame.valAt, col_rolling_std_15min, framePrices_eq]
      exact ⟨rollStd_row0 15 _, fun h1 => rollStd_isFin 15 i _ (by norm_num) h1 hq⟩
    · simp only [Frame.valAt, col_rolling_std_30min, framePrices_eq]
      exact ⟨rollStd_row0 30 _, fun h1 => rollStd_isFin 30 i _ (by norm_num) h1 hq⟩
    · simp only [Frame.valAt, col_rolling_std_60min, framePrices_eq]
      exact ⟨rollStd_row0 60 _, fun h1 => rollStd_isFin 60 i _ (by norm_num) h1 hq⟩

/-- C6 counterexample: on the single-row input the rolling standard
deviation at row 0 is NaN (a null), not a defined value, because pandas'
sample standard deviation of one observation is NaN. -/
theorem c6_counterexample :
    (engineer_all_features [⟨100, 0, "b"⟩]).rows.length = 1 ∧
    (engineer_all_features [⟨100, 0, "b"⟩]).valAt "rolling_std_5min" 0 = FV.nan := by
  decide

/-- C6 witness: the amended statement instantiated at the two-row input at
row 1, where every rolling column (std included) is defined. -/
theorem c6_partial_windows_witness :
    ((engineer_all_features [⟨100, 0, "b"⟩, ⟨101, 1, "b"⟩]).valAt
        "rolling_mean_5min" 1).isFin = true ∧
    (engineer_all_features [⟨100, 0, "b"⟩, ⟨101, 1, "b"⟩]).valAt
        "rolling_std_5min" 0 = FV.nan ∧
    ((engineer_all_features [⟨100, 0, "b"⟩, ⟨101, 1, "b"⟩]).valAt
        "rolling_std_5min" 1).isFin = true := by
  have h := c6_partial_windows [⟨100, 0, "b"⟩, ⟨101, 1, "b"⟩] 1 (by decide)
  refine ⟨h.1 "rolling_mean_5min" (by decide), ?_, ?_⟩
  · exact (h.2 "rolling_std_5min" (by decide)).1
  · exact (h.2 "rolling_std_5min" (by decide)).2 (by decide)

/-! ## C4 -/

lemma getD_zipWith (f : FV → FV → FV) :
    ∀ (xs ys : List FV) (i : ℕ), i < xs.length → i < ys.length →
      (List.zipWith f xs ys).getD i FV.nan = f (xs.getD i FV.nan) (ys.getD i FV.nan)
  | _ :: _, _ :: _, 0, _, _ => rfl
  | x :: xs, y :: ys, i + 1, h, h' =>
      getD_zipWith f xs ys i (by simpa using h) (by simpa using h')
  | [], _, i, h, _ => absurd h (by simp)
  | _ :: _, [], i, _, h' => absurd h' (by simp)

lemma getD_map (g : FV → FV) :
    ∀ (xs : List FV) (i : ℕ), i < xs.length →
      (xs.map g).getD i FV.nan = g (xs.getD i FV.nan)
  | _ :: _, 0, _ => rfl
  | x :: xs, i + 1, h => getD_map g xs i (by simpa using h)
  | [], i, h => absurd h (by simp)

lemma getD_replicate {α : Type} :
    ∀ (n i : ℕ) (a d : α), i < n → (List.replicate n a).getD i d = a
  | n + 1, 0, _, _, _ => rfl
  | n + 1, i + 1, a, d, h => getD_replicate n i a d (by omega)
  | 0, i, _, _, h => absurd h (by omega)

lemma windowSlice_replicate {α : Type} (w i n : ℕ) (a : α) (h2 : i < n) :
    windowSlice w (List.replicate n a) i = List.replicate (min w (i + 1)) a := by
  rw [windowSlice, List.take_replicate, List.drop_replicate]
  congr 1
  omega

lemma meanAgg_replicate (m : ℕ) (q : ℚ) (hm : 1 ≤ m) :
    meanAgg (List.replicate m (FV.fin q)) = FV.fin q := by
  have hm' : ((m : ℚ)) ≠ 0 := by exact_mod_cast (by omega : m ≠ 0)
  rw [← List.map_replicate,
    meanAgg_map_fin _ (by rw [Ne, List.replicate_eq_nil_iff]; omega)]
  congr 1
  rw [List.sum_replicate, List.length_replicate, nsmul_eq_mul, mul_comm,
    mul_div_assoc, div_self hm', mul_one]

lemma stdAgg_replicate (m : ℕ) (q : ℚ) (hm : 2 ≤ m) :
    stdAgg (List.replicate m (FV.fin q)) = FV.fin 0 := by
  have hm' : ((m : ℚ)) ≠ 0 := by exact_mod_cast (by omega : m ≠ 0)
  rw [← List.map_replicate, stdAgg_map_fin_long _ (by simpa using hm)]
  have hmean : (List.replicate m q).sum / ((List.replicate m q).length : ℚ) = q := by
    rw [List.sum_replicate, List.length_replicate, nsmul_eq_mul, mul_comm,
      mul_div_assoc, div_self hm', mul_one]
  rw [hmean, List.map_replicate]
  simp

/-- For a constant window, the Bollinger width at any in-range row with a
defined standard deviation is exactly zero. -/
lemma bb_width_replicate (q : ℚ) (n i : ℕ) (h1 : 1 ≤ i) (h2 : i < n) :
    ((calculate_bollinger_bands (List.replicate n (FV.fin q)) 20 2).bb_width).getD
      i FV.nan = FV.fin 0 := by
  have hlen : (List.replicate n (FV.fin q)).length = n := by simp
  have hmean : (rollL meanAgg 20 (List.replicate n (FV.fin q))).getD i FV.nan
      = FV.fin q := by
    rw [rollL_getD _ _ _ (by simpa using h2), windowSlice_replicate _ _ _ _ h2,
      meanAgg_replicate _ _ (by omega)]
  have hstd : (rollL stdAgg 20 (List.replicate n (FV.fin q))).getD i FV.nan
      = FV.fin 0 := by
    rw [rollL_getD _ _ _ (by simpa using h2), windowSlice_replicate _ _ _ _ h2,
      stdAgg_replicate _ _ (by omega)]
  have lmean : (rollL meanAgg 20 (List.replicate n (FV.fin q))).length = n := by
    rw [rollL, length_idxMap, hlen]
  have lstd : (rollL stdAgg 20 (List.replicate n (FV.fin q))).length = n := by
    rw [rollL, length_idxMap, hlen]
  have hS2 : (((rollL stdAgg 20 (List.replicate n (FV.fin q))).map
      (fun s => FV.mul s (FV.fin 2)))).getD i FV.nan = FV.fin 0 := by
    rw [getD_map _ _ _ (by omega), hstd]
    simp [FV.mul]
  have lS2 : (((rollL stdAgg 20 (List.replicate n (FV.fin q))).map
      (fun s => FV.mul s (FV.fin 2)))).length = n := by simp [lstd]
  have hupper : ((List.zipWith FV.add (rollL meanAgg 20 (List.replicate n (FV.fin q)))
      ((rollL stdAgg 20 (List.replicate n (FV.fin q))).map
        (fun s => FV.mul s (FV.fin 2))))).getD i FV.nan = FV.fin q := by
    rw [getD_zipWith _ _ _ _ (by omega) (by omega), hmean, hS2]
    simp [FV.add]
  have hlower : ((List.zipWith FV.sub (rollL meanAgg 20 (List.replicate n (FV.fin q)))
      ((rollL stdAgg 20 (List.replicate n (FV.fin q))).map
        (fun s => FV.mul s (FV.fin 2))))).getD i FV.nan = FV.fin q := by
    rw [getD_zipWith _ _ _ _ (by omega) (by omega), hmean, hS2]
    simp [FV.sub, FV.neg, FV.add]
  have lupper : ((List.zipWith FV.add (rollL meanAgg 20 (List.replicate n (FV.fin q)))
      ((rollL stdAgg 20 (List.replicate n (FV.fin q))).map
        (fun s => FV.mul s (FV.fin 2))))).length = n := by
    simp [List.length_zipWith, lmean, lS2]
  have llower : ((List.zipWith FV.sub (rollL meanAgg 20 (List.replicate n (FV.fin q)))
      ((rollL stdAgg 20 (List.replicate n (FV.fin q))).map
        (fun s => FV.mul s (FV.fin 2))))).length = n := by
    simp [List.length_zipWith, lmean, lS2]
  simp only [calculate_bollinger_bands]
  rw [getD_zipWith _ _ _ _ (by omega) (by omega), hupper, hlower]
  simp [FV.sub, FV.neg, FV.add]

/-- For a constant window, the Bollinger position at any in-range row with a
defined standard deviation is NaN: the division is `0 / 0` and `clip` keeps
NaN. -/
lemma bb_position_replicate (q : ℚ) (n i : ℕ) (h1 : 1 ≤ i) (h2 : i < n) :
    ((calculate_bollinger_bands (List.replicate n (FV.fin q)) 20 2).bb_position).getD
      i FV.nan = FV.nan := by
  have hlen : (List.replicate n (FV.fin q)).length = n := by simp
  have hmean : (rollL meanAgg 20 (List.replicate n (FV.fin q))).getD i FV.nan
      = FV.fin q := by
    rw [rollL_getD _ _ _ (by simpa using h2), windowSlice_replicate _ _ _ _ h2,
      meanAgg_replicate _ _ (by omega)]
  have hstd : (rollL stdAgg 20 (List.replicate n (FV.fin q))).getD i FV.nan
      = FV.fin 0 := by
    rw [rollL_getD _ _ _ (by simpa using h2), windowSlice_replicate _ _ _ _ h2,
      stdAgg_replicate _ _ (by omega)]
  have hrep : (List.replicate n (FV.fin q)).getD i FV.nan = FV.fin q :=
    getD_replicate n i _ _ h2
  have lmean : (rollL meanAgg 20 (List.replicate n (FV.fin q))).length = n := by
    rw [rollL, length_idxMap, hlen]
  have lstd : (rollL stdAgg 20 (List.replicate n (FV.fin q))).length = n := by
    rw [rollL, length_idxMap, hlen]
  have hS2 : (((rollL stdAgg 20 (List.replicate n (FV.fin q))).map
      (fun s => FV.mul s (FV.fin 2)))).getD i FV.nan = FV.fin 0 := by
    rw [getD_map _ _ _ (by omega), hstd]
    simp [FV.mul]
  have lS2 : (((rollL stdAgg 20 (List.replicate n (FV.fin q))).map
      (fun s => FV.mul s (FV.fin 2)))).length = n := by simp [lstd]
  have hupper : ((List.zipWith FV.add (rollL meanAgg 20 (List.replicate n (FV.fin q)))
      ((rollL stdAgg 20 (List.replicate n (FV.fin q))).map
        (fun s => FV.mul s (FV.fin 2))))).getD i FV.nan = FV.fin q := by
    rw [getD_zipWith _ _ _ _ (by omega) (by omega), hmean, hS2]
    simp [FV.add]
  have hlower : ((List.zipWith FV.sub (rollL meanAgg 20 (List.replicate n (FV.fin q)))
      ((rollL stdAgg 20 (List.replicate n (FV.fin q))).map
        (fun s => FV.mul s (FV.fin 2))))).getD i FV.nan = FV.fin q := by
    rw [getD_zipWith _ _ _ _ (by omega) (by omega), hmean, hS2]
    simp [FV.sub, FV.neg, FV.add]
  have lupper : ((List.zipWith FV.add (rollL meanAgg 20 (List.replicate n (FV.fin q)))
      ((rollL stdAgg 20 (List.replicate n (FV.fin q))).map
        (fun s => FV.mul s (FV.fin 2))))).length = n := by
    simp [List.length_zipWith, lmean, lS2]
  have llower : ((List.zipWith FV.sub (rollL meanAgg 20 (List.replicate n (FV.fin q)))
      ((rollL stdAgg 20 (List.replicate n (FV.fin q))).map
        (fun s => FV.mul s (FV.fin 2))))).length = n := by
    simp [List.length_zipWith, lmean, lS2]
  have lA : ((List.zipWith FV.sub (List.replicate n (FV.fin q))
      (List.zipWith FV.sub (rollL meanAgg 20 (List.replicate n (FV.fin q)))
        ((rollL stdAgg 20 (List.replicate n (FV.fin q))).map
          (fun s => FV.mul s (FV.fin 2)))))).length = n := by
    simp [List.length_zipWith, hlen, lmean, lS2]
  have lB : ((List.zipWith FV.sub
      (List.zipWith FV.add (rollL meanAgg 20 (List.replicate n (FV.fin q)))
        ((rollL stdAgg 20 (List.replicate n (FV.fin q))).map
          (fun s => FV.mul s (FV.fin 2))))
      (List.zipWith FV.sub (rollL meanAgg 20 (List.replicate n (FV.fin q)))
        ((rollL stdAgg 20 (List.replicate n (FV.fin q))).map
          (fun s => FV.mul s (FV.fin 2)))))).length = n := by
    simp [List.length_zipWith, lmean, lS2]
  have lDiv : ((List.zipWith FV.div (List.zipWith FV.sub (List.replicate n (FV.fin q))
      (List.zipWith FV.sub (rollL meanAgg 20 (List.replicate n (FV.fin q)))
        ((rollL stdAgg 20 (List.replicate n (FV.fin q))).map
          (fun s => FV.mul s (FV.fin 2)))))
      (List.zipWith FV.sub
        (List.zipWith FV.add (rollL meanAgg 20 (List.replicate n (FV.fin q)))
          ((rollL stdAgg 20 (List.replicate n (FV.fin q))).map
            (fun s => FV.mul s (FV.fin 2))))
        (List.zipWith FV.sub (rollL meanAgg 20 (List.replicate n (FV.fin q)))
          ((rollL stdAgg 20 (List.replicate n (FV.fin q))).map
            (fun s => FV.mul s (FV.fin 2))))))).length = n := by
    simp [List.length_zipWith, lA, lB, hlen, lmean, lS2]
  simp only [calculate_bollinger_bands]
  rw [getD_map _ _ _ (by omega), getD_zipWith _ _ _ _ (by omega) (by omega)]
  rw [getD_zipWith _ _ _ _ (by omega) (by omega)]
  rw [hrep, hlower]
  rw [getD_zipWith _ _ _ _ (by omega) (by omega)]
  rw [hupper, hlower]
  simp [FV.sub, FV.neg, FV.add, FV.div, FV.clip]

/-- C4 as amended: on every constant price series, at every row where the
rolling standard deviation is defined (row 1 onward), `bb_width` is exactly 0
— but `bb_position` is NaN, not 0.5: the code divides `0 / 0` and clips NaN,
it has no flat-window guard.  No exception is raised (the transform is
total). -/
theorem c4_flat_series (input : List PricePoint) (q : ℚ) (n i : ℕ)
    (hp : rawPrices input = List.replicate n q) (h1 : 1 ≤ i) (h2 : i < n) :
    (engineer_all_features input).valAt "bb_width" i = FV.fin 0 ∧
    (engineer_all_features input).valAt "bb_position" i = FV.nan := by
  have hP : framePrices input = List.replicate n (FV.fin q) := by
    rw [framePrices_eq, hp, List.map_replicate]
  constructor
  · rw [Frame.valAt, col_bb_width, hP]
    exact bb_width_replicate q n i h1 h2
  · rw [Frame.valAt, col_bb_position, hP]
    exact bb_position_replicate q n i h1 h2

/-- C4 counterexample: on a 20-point constant series, at row 19 (where the
rolling standard deviation is defined) the code yields `bb_width = 0` but
`bb_position = NaN`, not the claimed 0.5. -/
theorem c4_counterexample :
    (engineer_all_features ((List.range 20).map
        (fun k => (⟨100, k, "b"⟩ : PricePoint)))).valAt "bb_width" 19 = FV.fin 0 ∧
    (engineer_all_features ((List.range 20).map
        (fun k => (⟨100, k, "b"⟩ : PricePoint)))).valAt "bb_position" 19 = FV.nan ∧
    (engineer_all_features ((List.range 20).map
        (fun k => (⟨100, k, "b"⟩ : PricePoint)))).valAt "bb_position" 19 ≠
      FV.fin (1 / 2) := by
  refine ⟨?_, ?_, ?_⟩ <;> decide!

/-- C4 witness: the amended statement instantiated on the concrete 20-point
constant series at row 19. -/
theorem c4_flat_series_witness :
    (engineer_all_features ((List.range 20).map
        (fun k => (⟨7, k, "b"⟩ : PricePoint)))).valAt "bb_width" 19 = FV.fin 0 ∧
    (engineer_all_features ((List.range 20).map
        (fun k => (⟨7, k, "b"⟩ : PricePoint)))).valAt "bb_position" 19 = FV.nan :=
  c4_flat_series _ 7 20 19 (by decide) (by decide) (by decide)

/-! ## C7 -/

lemma getD_mem {α : Type} :
    ∀ (l : List α) (i : ℕ) (d : α), i < l.length → l.getD i d ∈ l
  | x :: _, 0, _, _ => List.mem_cons_self x _
  | x :: xs, i + 1, d, h =>
      List.mem_cons_of_mem x (getD_mem xs i d (by simpa using h))
  | [], _, _, h => absurd h (by simp)

lemma getD_map_fin :
    ∀ (ps : List ℚ) (j : ℕ), j < ps.length →
      (ps.map FV.fin).getD j FV.nan = FV.fin (ps.getD j 0)
  | _ :: _, 0, _ => rfl
  | p :: ps, j + 1, h => getD_map_fin ps j (by simpa using h)
  | [], j, h => absurd h (by simp)

lemma mem_idxMap (n : ℕ) (f : ℕ → FV) (v : FV) (h : v ∈ idxMap n f) :
    ∃ j, j < n ∧ v = f j := by
  rcases List.mem_map.mp h with ⟨j, hj, rfl⟩
  exact ⟨j, List.mem_range.mp hj, rfl⟩

lemma windowSlice_subset {α : Type} (w i : ℕ) (xs : List α) :
    windowSlice w xs i ⊆ xs :=
  fun _ hv => List.take_subset _ _ (List.drop_subset _ _ hv)

lemma getD_windowSlice_last {α : Type} (w i : ℕ) (xs : List α) (d : α)
    (hw : 1 ≤ w) (_h : i < xs.length) :
    (windowSlice w xs i).getD (min w (i + 1) - 1) d = xs.getD i d := by
  have harith : (i + 1 - w) + (min w (i + 1) - 1) = i := by omega
  have hlt : (i + 1 - w) + (min w (i + 1) - 1) < i + 1 := by omega
  rw [windowSlice, List.getD, List.get?_eq_getElem?, List.getElem?_drop, harith,
    List.getElem?_take, if_pos (by omega : i < i + 1), ← List.get?_eq_getElem?,
    List.getD]

lemma mem_windowSlice_self {α : Type} (w i : ℕ) (xs : List α) (d : α)
    (hw : 1 ≤ w) (h : i < xs.length) :
    xs.getD i d ∈ windowSlice w xs i := by
  rw [← getD_windowSlice_last w i xs d hw h]
  apply getD_mem
  rw [windowSlice_length w i xs h]
  omega

lemma all_fin_eq_map (l : List FV) (h : ∀ v ∈ l, ∃ q, v = FV.fin q) :
    l = (l.filterMap FV.finPart).map FV.fin := by
  induction l with
  | nil => rfl
  | cons v l' ih =>
      rcases h v (List.mem_cons_self v l') with ⟨q, rfl⟩
      have := ih (fun u hu => h u (List.mem_cons_of_mem _ hu))
      simp only [List.filterMap_cons, FV.finPart, List.map_cons]
      exact congrArg (FV.fin q :: ·) this

lemma length_filterMap_all_fin (l : List FV) (h : ∀ v ∈ l, ∃ q, v = FV.fin q) :
    (l.filterMap FV.finPart).length = l.length := by
  conv_rhs => rw [all_fin_eq_map l h]
  rw [List.length_map]

lemma meanAgg_of_all_fin (l : List FV) (h : ∀ v ∈ l, ∃ q, v = FV.fin q)
    (hne : l ≠ []) :
    meanAgg l =
      FV.fin ((l.filterMap FV.finPart).sum / (l.filterMap FV.finPart).length) := by
  have hq : l.filterMap FV.finPart ≠ [] := by
    intro hnil
    have := length_filterMap_all_fin l h
    rw [hnil] at this
    exact hne (List.length_eq_zero.mp this.symm)
  conv_lhs => rw [all_fin_eq_map l h]
  exact meanAgg_map_fin _ hq

lemma meanAgg_nonneg (l : List FV) (h : ∀ v ∈ l, ∃ q, v = FV.fin q ∧ 0 ≤ q)
    (hne : l ≠ []) : ∃ g, meanAgg l = FV.fin g ∧ 0 ≤ g := by
  have h' : ∀ v ∈ l, ∃ q, v = FV.fin q := fun v hv => ⟨(h v hv).choose, (h v hv).choose_spec.1⟩
  refine ⟨_, meanAgg_of_all_fin l h' hne, ?_⟩
  have hpos : ∀ q ∈ l.filterMap FV.finPart, 0 ≤ q := by
    intro q hq
    rcases List.mem_filterMap.mp hq with ⟨v, hv, hfp⟩
    rcases h v hv with ⟨q', rfl, hq'⟩
    cases hfp
    exact hq'
  have hsum : 0 ≤ (l.filterMap FV.finPart).sum := List.sum_nonneg hpos
  positivity

lemma meanAgg_pos (l : List FV) (h : ∀ v ∈ l, ∃ q, v = FV.fin q ∧ 0 ≤ q)
    (hex : ∃ v, v ∈ l ∧ ∃ q, v = FV.fin q ∧ 0 < q) :
    ∃ g, meanAgg l = FV.fin g ∧ 0 < g := by
  rcases hex with ⟨v, hv, q0, rfl, hq0⟩
  have hne : l ≠ [] := fun hnil => by simp [hnil] at hv
  have h' : ∀ v ∈ l, ∃ q, v = FV.fin q := fun v hv => ⟨(h v hv).choose, (h v hv).choose_spec.1⟩
  refine ⟨_, meanAgg_of_all_fin l h' hne, ?_⟩
  have hpos : ∀ q ∈ l.filterMap FV.finPart, 0 ≤ q := by
    intro q hq
    rcases List.mem_filterMap.mp hq with ⟨u, hu, hfp⟩
    rcases h u hu with ⟨q', rfl, hq'⟩
    cases hfp
    exact hq'
  have hq0mem : q0 ∈ l.filterMap FV.finPart :=
    List.mem_filterMap.mpr ⟨FV.fin q0, hv, rfl⟩
  have hsum : q0 ≤ (l.filterMap FV.finPart).sum :=
    List.single_le_sum hpos q0 hq0mem
  have hlenpos : 0 < (l.filterMap FV.finPart).length := List.length_pos.mpr (by
    intro hnil
    rw [hnil] at hq0mem
    exact absurd hq0mem (List.not_mem_nil _))
  have : (0 : ℚ) < (l.filterMap FV.finPart).length := by exact_mod_cast hlenpos
  exact div_pos (lt_of_lt_of_le hq0 hsum) this

lemma meanAgg_all_zero (l : List FV) (h : ∀ v ∈ l, v = FV.fin 0) (hne : l ≠ []) :
    meanAgg l = FV.fin 0 := by
  have : l = List.replicate l.length (FV.fin 0) := List.eq_replicate_of_mem h
  rw [this]
  exact meanAgg_replicate _ _ (by
    have := List.length_pos.mpr hne
    omega)

lemma fv_sub_fin (a b : ℚ) : FV.sub (FV.fin a) (FV.fin b) = FV.fin (a - b) := by
  simp [FV.sub, FV.add, FV.neg, sub_eq_add_neg]

lemma fv_div_fin (a b : ℚ) (hb : b ≠ 0) :
    FV.div (FV.fin a) (FV.fin b) = FV.fin (a / b) := by
  simp [FV.div, hb]

lemma fv_div_fin_zero_pos (a : ℚ) (ha : 0 < a) :
    FV.div (FV.fin a) (FV.fin 0) = FV.inf := by
  simp [FV.div, ha, ne_of_gt ha]

lemma getD_eq_getElem' {α : Type} :
    ∀ (l : List α) (i : ℕ) (d : α) (h : i < l.length), l.getD i d = l[i]
  | _ :: _, 0, _, _ => rfl
  | x :: xs, i + 1, d, h => getD_eq_getElem' xs i d (by simpa using h)
  | [], i, d, h => absurd h (by simp)

lemma chain'_getD {r : ℚ → ℚ → Prop} (ps : List ℚ) (h : List.Chain' r ps) (i : ℕ)
    (h1 : 1 ≤ i) (h2 : i < ps.length) : r (ps.getD (i - 1) 0) (ps.getD i 0) := by
  have hh := List.chain'_iff_get.mp h (i - 1) (by omega)
  have e1 : ps.getD (i - 1) 0 = ps.get ⟨i - 1, by omega⟩ := by
    rw [getD_eq_getElem' _ _ _ (by omega : i - 1 < ps.length)]
    simp [List.get_eq_getElem]
  have e2 : ps.getD i 0 = ps.get ⟨i - 1 + 1, by omega⟩ := by
    rw [getD_eq_getElem' _ _ _ h2]
    simp only [List.get_eq_getElem]
    congr 1
    omega
  rw [e1, e2]
  exact hh

/-- Structure of the `diff(1)` series over an all-finite input: NaN or finite. -/
lemma delta_struct (ps : List ℚ) (v : FV) (hv : v ∈ diffL 1 (ps.map FV.fin)) :
    v = FV.nan ∨ ∃ d, v = FV.fin d := by
  rcases mem_idxMap _ _ v hv with ⟨j, hj, rfl⟩
  have hj' : j < ps.length := by simpa using hj
  by_cases h1 : 1 ≤ j
  · right
    refine ⟨ps.getD j 0 - ps.getD (j - 1) 0, ?_⟩
    simp only [if_pos h1]
    rw [getD_map_fin _ _ hj', getD_map_fin _ _ (by omega), fv_sub_fin]
  · left
    simp only [if_neg h1]

/-- Over a strictly increasing input, every finite `diff(1)` cell is positive. -/
lemma delta_struct_mono (ps : List ℚ) (hmono : List.Chain' (· < ·) ps) (v : FV)
    (hv : v ∈ diffL 1 (ps.map FV.fin)) :
    v = FV.nan ∨ ∃ d, v = FV.fin d ∧ 0 < d := by
  rcases mem_idxMap _ _ v hv with ⟨j, hj, rfl⟩
  have hj' : j < ps.length := by simpa using hj
  by_cases h1 : 1 ≤ j
  · right
    refine ⟨ps.getD j 0 - ps.getD (j - 1) 0, ?_, ?_⟩
    · simp only [if_pos h1]
      rw [getD_map_fin _ _ hj', getD_map_fin _ _ (by omega), fv_sub_fin]
    · have := chain'_getD ps hmono j h1 hj'
      linarith
  · left
    simp only [if_neg h1]

/-- Over a strictly decreasing input, every finite `diff(1)` cell is negative. -/
lemma delta_struct_anti (ps : List ℚ) (hmono : List.Chain' (· > ·) ps) (v : FV)
    (hv : v ∈ diffL 1 (ps.map FV.fin)) :
    v = FV.nan ∨ ∃ d, v = FV.fin d ∧ d < 0 := by
  rcases mem_idxMap _ _ v hv with ⟨j, hj, rfl⟩
  have hj' : j < ps.length := by simpa using hj
  by_cases h1 : 1 ≤ j
  · right
    refine ⟨ps.getD j 0 - ps.getD (j - 1) 0, ?_, ?_⟩
    · simp only [if_pos h1]
      rw [getD_map_fin _ _ hj', getD_map_fin _ _ (by omega), fv_sub_fin]
    · have := chain'_getD ps hmono j h1 hj'
      simp only [gt_iff_lt] at this
      linarith
  · left
    simp only [if_neg h1]

/-- Every gain cell (`delta.where(delta > 0, 0)`) is finite and nonnegative. -/
lemma gainIn_struct (ps : List ℚ) (v : FV)
    (hv : v ∈ (diffL 1 (ps.map FV.fin)).map
      (fun v => if FV.ltB (FV.fin 0) v then v else FV.fin 0)) :
    ∃ q, v = FV.fin q ∧ 0 ≤ q := by
  rcases List.mem_map.mp hv with ⟨u, hu, rfl⟩
  rcases delta_struct ps u hu with rfl | ⟨d, rfl⟩
  · exact ⟨0, by simp [FV.ltB], le_refl 0⟩
  · by_cases hd : 0 < d
    · exact ⟨d, by simp [FV.ltB, hd], le_of_lt hd⟩
    · exact ⟨0, by simp [FV.ltB, hd], le_refl 0⟩

/-- Every loss cell (`-delta.where(delta < 0, 0)`) is finite and nonnegative. -/
lemma lossIn_struct (ps : List ℚ) (v : FV)
    (hv : v ∈ ((diffL 1 (ps.map FV.fin)).map
      (fun v => if FV.ltB v (FV.fin 0) then v else FV.fin 0)).map FV.neg) :
    ∃ q, v = FV.fin q ∧ 0 ≤ q := by
  rcases List.mem_map.mp hv with ⟨u', hu', rfl⟩
  rcases List.mem_map.mp hu' with ⟨u, hu, rfl⟩
  rcases delta_struct ps u hu with rfl | ⟨d, rfl⟩
  · exact ⟨0, by simp [FV.ltB, FV.neg], le_refl 0⟩
  · by_cases hd : d < 0
    · exact ⟨-d, by simp [FV.ltB, hd, FV.neg], by linarith⟩
    · exact ⟨0, by simp [FV.ltB, hd, FV.neg], le_refl 0⟩

lemma gate_gain_pos (d : ℚ) (hd : 0 < d) :
    (if FV.ltB (FV.fin 0) (FV.fin d) then FV.fin d else FV.fin 0) = FV.fin d := by
  simp [FV.ltB, hd]

lemma gate_gain_nonpos (d : ℚ) (hd : d ≤ 0) :
    (if FV.ltB (FV.fin 0) (FV.fin d) then FV.fin d else FV.fin 0) = FV.fin 0 := by
  simp [FV.ltB, not_lt.mpr hd]

lemma gate_loss_neg (d : ℚ) (hd : d < 0) :
    FV.neg (if FV.ltB (FV.fin d) (FV.fin 0) then FV.fin d else FV.fin 0)
      = FV.fin (-d) := by
  simp [FV.ltB, hd, FV.neg]

lemma gate_loss_nonneg (d : ℚ) (hd : 0 ≤ d) :
    FV.neg (if FV.ltB (FV.fin d) (FV.fin 0) then FV.fin d else FV.fin 0)
      = FV.fin 0 := by
  simp [FV.ltB, not_lt.mpr hd, FV.neg]

lemma gate_gain_nan :
    (if FV.ltB (FV.fin 0) FV.nan then FV.nan else FV.fin 0) = FV.fin 0 := rfl

lemma gate_loss_nan :
    FV.neg (if FV.ltB FV.nan (FV.fin 0) then FV.nan else FV.fin 0) = FV.fin 0 := by
  simp [FV.ltB, FV.neg]

/-- On a strictly increasing series the RSI saturates at exactly 100 at every
row from 1 on: the loss average is 0, `gain/loss` is `+inf`, and
`100 - 100/(1 + inf)` collapses to 100. -/
lemma rsi_increasing (ps : List ℚ) (hmono : List.Chain' (· < ·) ps)
    (i : ℕ) (h1 : 1 ≤ i) (h2 : i < ps.length) :
    (calculate_rsi (ps.map FV.fin) 14).getD i FV.nan = FV.fin 100 := by
  simp only [calculate_rsi]
  set gIn := (diffL 1 (ps.map FV.fin)).map
    (fun v => if FV.ltB (FV.fin 0) v then v else FV.fin 0) with hgIn
  set lIn := ((diffL 1 (ps.map FV.fin)).map
    (fun v => if FV.ltB v (FV.fin 0) then v else FV.fin 0)).map FV.neg with hlIn
  have hldelta : (diffL 1 (ps.map FV.fin)).length = ps.length := by
    rw [diffL, length_idxMap]
    simp
  have hlgIn : gIn.length = ps.length := by rw [hgIn, List.length_map, hldelta]
  have hllIn : lIn.length = ps.length := by
    rw [hlIn, List.length_map, List.length_map, hldelta]
  have hlgain : (rollL meanAgg 14 gIn).length = ps.length := by
    rw [rollL, length_idxMap, hlgIn]
  have hlloss : (rollL meanAgg 14 lIn).length = ps.length := by
    rw [rollL, length_idxMap, hllIn]
  have hlz : (List.zipWith FV.div (rollL meanAgg 14 gIn)
      (rollL meanAgg 14 lIn)).length = ps.length := by
    simp [List.length_zipWith, hlgain, hlloss]
  have hgainval : ∃ g, (rollL meanAgg 14 gIn).getD i FV.nan = FV.fin g ∧ 0 < g := by
    rw [rollL_getD _ _ _ (by omega)]
    apply meanAgg_pos
    · intro v hv
      have hv' := windowSlice_subset _ _ _ hv
      rw [hgIn] at hv'
      exact gainIn_struct ps v hv'
    · refine ⟨gIn.getD i FV.nan, mem_windowSlice_self _ _ _ _ (by norm_num)
        (by omega), ?_⟩
      rw [hgIn, getD_map _ _ _ (by omega)]
      rw [diffL, getD_idxMap _ _ (by simp; omega) _, if_pos h1,
        getD_map_fin _ _ h2, getD_map_fin _ _ (by omega), fv_sub_fin]
      have hd : 0 < ps.getD i 0 - ps.getD (i - 1) 0 := by
        have := chain'_getD ps hmono i h1 h2
        linarith
      exact ⟨ps.getD i 0 - ps.getD (i - 1) 0, gate_gain_pos _ hd, hd⟩
  have hlossval : (rollL meanAgg 14 lIn).getD i FV.nan = FV.fin 0 := by
    rw [rollL_getD _ _ _ (by omega)]
    apply meanAgg_all_zero
    · intro v hv
      have hv' := windowSlice_subset _ _ _ hv
      rw [hlIn] at hv'
      rcases List.mem_map.mp hv' with ⟨u', hu', rfl⟩
      rcases List.mem_map.mp hu' with ⟨u, hu, rfl⟩
      rcases delta_struct_mono ps hmono u hu with rfl | ⟨d, rfl, hd⟩
      · exact gate_loss_nan
      · exact gate_loss_nonneg d (le_of_lt hd)
    · exact windowSlice_ne_nil _ _ _ (by norm_num) (by omega)
  rcases hgainval with ⟨g, hg, hgpos⟩
  rw [getD_map _ _ _ (by omega), getD_zipWith _ _ _ _ (by omega) (by omega),
    hg, hlossval, fv_div_fin_zero_pos g hgpos]
  simp [FV.sub, FV.add, FV.neg, FV.div]

/-- On a strictly decreasing series the RSI is exactly 0 at every row from 1
on: the gain average is 0, `gain/loss = 0`, and `100 - 100/(1+0) = 0`. -/
lemma rsi_decreasing (ps : List ℚ) (hmono : List.Chain' (· > ·) ps)
    (i : ℕ) (h1 : 1 ≤ i) (h2 : i < ps.length) :
    (calculate_rsi (ps.map FV.fin) 14).getD i FV.nan = FV.fin 0 := by
  simp only [calculate_rsi]
  set gIn := (diffL 1 (ps.map FV.fin)).map
    (fun v => if FV.ltB (FV.fin 0) v then v else FV.fin 0) with hgIn
  set lIn := ((diffL 1 (ps.map FV.fin)).map
    (fun v => if FV.ltB v (FV.fin 0) then v else FV.fin 0)).map FV.neg with hlIn
  have hldelta : (diffL 1 (ps.map FV.fin)).length = ps.length := by
    rw [diffL, length_idxMap]
    simp
  have hlgIn : gIn.length = ps.length := by rw [hgIn, List.length_map, hldelta]
  have hllIn : lIn.length = ps.length := by
    rw [hlIn, List.length_map, List.length_map, hldelta]
  have hlgain : (rollL meanAgg 14 gIn).length = ps.length := by
    rw [rollL, length_idxMap, hlgIn]
  have hlloss : (rollL meanAgg 14 lIn).length = ps.length := by
    rw [rollL, length_idxMap, hllIn]
  have hlz : (List.zipWith FV.div (rollL meanAgg 14 gIn)
      (rollL meanAgg 14 lIn)).length = ps.length := by
    simp [List.length_zipWith, hlgain, hlloss]
  have hgainval : (rollL meanAgg 14 gIn).getD i FV.nan = FV.fin 0 := by
    rw [rollL_getD _ _ _ (by omega)]
    apply meanAgg_all_zero
    · intro v hv
      have hv' := windowSlice_subset _ _ _ hv
      rw [hgIn] at hv'
      rcases List.mem_map.mp hv' with ⟨u, hu, rfl⟩
      rcases delta_struct_anti ps hmono u hu with rfl | ⟨d, rfl, hd⟩
      · exact gate_gain_nan
      · exact gate_gain_nonpos d (le_of_lt hd)
    · exact windowSlice_ne_nil _ _ _ (by norm_num) (by omega)
  have hlossval : ∃ l, (rollL meanAgg 14 lIn).getD i FV.nan = FV.fin l ∧ 0 < l := by
    rw [rollL_getD _ _ _ (by omega)]
    apply meanAgg_pos
    · intro v hv
      have hv' := windowSlice_subset _ _ _ hv
      rw [hlIn] at hv'
      exact lossIn_struct ps v hv'
    · refine ⟨lIn.getD i FV.nan, mem_windowSlice_self _ _ _ _ (by norm_num)
        (by omega), ?_⟩
      rw [hlIn, getD_map _ _ _ (by simp [hldelta]; omega),
        getD_map _ _ _ (by omega)]
      rw [diffL, getD_idxMap _ _ (by simp; omega) _, if_pos h1,
        getD_map_fin _ _ h2, getD_map_fin _ _ (by omega), fv_sub_fin]
      have hd : ps.getD i 0 - ps.getD (i - 1) 0 < 0 := by
        have := chain'_getD ps hmono i h1 h2
        simp only [gt_iff_lt] at this
        linarith
      exact ⟨-(ps.getD i 0 - ps.getD (i - 1) 0), gate_loss_neg _ hd, by linarith⟩
  rcases hlossval with ⟨l, hl, hlpos⟩
  rw [getD_map _ _ _ (by omega), getD_zipWith _ _ _ _ (by omega) (by omega),
    hgainval, hl, fv_div_fin _ _ (ne_of_gt hlpos)]
  rw [zero_div]
  simp [FV.sub, FV.add, FV.neg, FV.div]

/-- Every defined (finite) RSI value lies in `[0, 100]`. -/
lemma rsi_bounded (ps : List ℚ) (i : ℕ) (q : ℚ)
    (hq : (calculate_rsi (ps.map FV.fin) 14).getD i FV.nan = FV.fin q) :
    0 ≤ q ∧ q ≤ 100 := by
  rw [calculate_rsi] at hq
  set gIn := (diffL 1 (ps.map FV.fin)).map
    (fun v => if FV.ltB (FV.fin 0) v then v else FV.fin 0) with hgIn
  set lIn := ((diffL 1 (ps.map FV.fin)).map
    (fun v => if FV.ltB v (FV.fin 0) then v else FV.fin 0)).map FV.neg with hlIn
  have hldelta : (diffL 1 (ps.map FV.fin)).length = ps.length := by
    rw [diffL, length_idxMap]
    simp
  have hlgIn : gIn.length = ps.length := by rw [hgIn, List.length_map, hldelta]
  have hllIn : lIn.length = ps.length := by
    rw [hlIn, List.length_map, List.length_map, hldelta]
  have hlgain : (rollL meanAgg 14 gIn).length = ps.length := by
    rw [rollL, length_idxMap, hlgIn]
  have hlloss : (rollL meanAgg 14 lIn).length = ps.length := by
    rw [rollL, length_idxMap, hllIn]
  have hlz : (List.zipWith FV.div (rollL meanAgg 14 gIn)
      (rollL meanAgg 14 lIn)).length = ps.length := by
    simp [List.length_zipWith, hlgain, hlloss]
  by_cases hi : i < ps.length
  · have hgainval : ∃ g, (rollL meanAgg 14 gIn).getD i FV.nan = FV.fin g ∧ 0 ≤ g := by
      rw [rollL_getD _ _ _ (by omega)]
      apply meanAgg_nonneg
      · intro v hv
        have hv' := windowSlice_subset _ _ _ hv
        rw [hgIn] at hv'
        exact gainIn_struct ps v hv'
      · exact windowSlice_ne_nil _ _ _ (by norm_num) (by omega)
    have hlossval : ∃ l, (rollL meanAgg 14 lIn).getD i FV.nan = FV.fin l ∧ 0 ≤ l := by
      rw [rollL_getD _ _ _ (by omega)]
      apply meanAgg_nonneg
      · intro v hv
        have hv' := windowSlice_subset _ _ _ hv
        rw [hlIn] at hv'
        exact lossIn_struct ps v hv'
      · exact windowSlice_ne_nil _ _ _ (by norm_num) (by omega)
    rcases hgainval with ⟨g, hg, hgnn⟩
    rcases hlossval with ⟨l, hl, hlnn⟩
    rw [getD_map _ _ _ (by omega), getD_zipWith _ _ _ _ (by omega) (by omega),
      hg, hl] at hq
    by_cases hl0 : l = 0
    · subst hl0
      by_cases hg0 : g = 0
      · subst hg0
        simp [FV.div, FV.sub, FV.add, FV.neg] at hq
      · have hgpos : 0 < g := lt_of_le_of_ne hgnn (Ne.symm hg0)
        rw [fv_div_fin_zero_pos g hgpos] at hq
        simp only [FV.add, FV.div, FV.sub, FV.neg] at hq
        injection hq with hq'
        constructor <;> [linarith [hq']; linarith [hq']]
    · have hlpos : 0 < l := lt_of_le_of_ne hlnn (Ne.symm hl0)
      rw [fv_div_fin _ _ hl0] at hq
      have hr : 0 ≤ g / l := div_nonneg hgnn hlnn
      have h1r : (0 : ℚ) < 1 + g / l := by linarith
      simp only [FV.add] at hq
      rw [fv_div_fin _ _ (ne_of_gt h1r)] at hq
      simp only [FV.sub, FV.neg, FV.add] at hq
      injection hq with hq'
      have hb1 : 0 < 100 / (1 + g / l) := by positivity
      have hb2 : 100 / (1 + g / l) ≤ 100 := by
        apply div_le_self (by norm_num)
        linarith
      constructor <;> linarith [hq']
  · rw [List.getD_eq_default _ _ (by simp [List.length_map, hlz]; omega)] at hq
    exact absurd hq (by simp)

/-- C7: on every strictly increasing price series of ≥ 14 points,
`calculate_rsi` with period 14 is exactly 100 at every row from 1 on (the
zero loss average makes `gain/loss = +inf` and the formula collapses to 100,
not `inf` or NaN); on every strictly decreasing series it is exactly 0; and
on every series whatsoever, every defined (finite) RSI value lies in
`[0, 100]`.  (Row 0 carries no delta, so the RSI there is NaN — a null, not
a value.) -/
theorem c7_rsi_saturation (ps : List ℚ) :
    (List.Chain' (· < ·) ps → 14 ≤ ps.length → ∀ i, 1 ≤ i → i < ps.length →
      (calculate_rsi (ps.map FV.fin) 14).getD i FV.nan = FV.fin 100) ∧
    (List.Chain' (· > ·) ps → 14 ≤ ps.length → ∀ i, 1 ≤ i → i < ps.length →
      (calculate_rsi (ps.map FV.fin) 14).getD i FV.nan = FV.fin 0) ∧
    (∀ i q, (calculate_rsi (ps.map FV.fin) 14).getD i FV.nan = FV.fin q →
      0 ≤ q ∧ q ≤ 100) :=
  ⟨fun hm _ i h1 h2 => rsi_increasing ps hm i h1 h2,
   fun hm _ i h1 h2 => rsi_decreasing ps hm i h1 h2,
   fun i q hq => rsi_bounded ps i q hq⟩

/-- C7 witness: the saturation at 100 and at 0 on concrete monotone 14-point
series, at the last row. -/
theorem c7_rsi_saturation_witness :
    (calculate_rsi (([1, 2, 3, 4, 5, 6, 7, 8, 9, 10, 11, 12, 13, 14] :
      List ℚ).map FV.fin) 14).getD 13 FV.nan = FV.fin 100 ∧
    (calculate_rsi (([14, 13, 12, 11, 10, 9, 8, 7, 6, 5, 4, 3, 2, 1] :
      List ℚ).map FV.fin) 14).getD 13 FV.nan = FV.fin 0 :=
  ⟨(c7_rsi_saturation _).1
      (by norm_num [List.chain'_cons, List.chain'_singleton]) (by norm_num)
      13 (by norm_num) (by norm_num),
   (c7_rsi_saturation _).2.1
      (by norm_num [List.chain'_cons, List.chain'_singleton]) (by norm_num)
      13 (by norm_num) (by norm_num)⟩

/-! ## C8 -/

lemma add_eq_fin (a b : FV) (q : ℚ) (h : FV.add a b = FV.fin q) :
    ∃ x y, a = FV.fin x ∧ b = FV.fin y ∧ x + y = q := by
  cases a <;> cases b <;> simp [FV.add] at h <;> exact ⟨_, _, rfl, rfl, h⟩

lemma sub_eq_fin (a b : FV) (q : ℚ) (h : FV.sub a b = FV.fin q) :
    ∃ x y, a = FV.fin x ∧ b = FV.fin y ∧ x - y = q := by
  cases a <;> cases b <;> simp [FV.sub, FV.add, FV.neg] at h <;>
    exact ⟨_, _, rfl, rfl, by linarith⟩

lemma mul_finc_eq_fin (v : FV) (c s2 : ℚ) (hc : 0 < c)
    (h : FV.mul v (FV.fin c) = FV.fin s2) : ∃ s, v = FV.fin s ∧ s * c = s2 := by
  cases v <;> simp [FV.mul, hc, not_lt.mpr (le_of_lt hc)] at h
  exact ⟨_, rfl, h⟩

lemma clip_fin_bounds (v : FV) (q : ℚ) (h : FV.clip 0 1 v = FV.fin q) :
    0 ≤ q ∧ q ≤ 1 := by
  cases v <;> simp [FV.clip] at h
  case fin p =>
    rw [← h]
    constructor
    · exact le_min (by norm_num) (le_max_left 0 p)
    · exact min_le_left 1 _
  case inf => rw [← h]; norm_num
  case ninf => rw [← h]; norm_num

lemma clip_ge_one (r : ℚ) (h : 1 ≤ r) : FV.clip 0 1 (FV.fin r) = FV.fin 1 := by
  rw [FV.clip, max_eq_right (by linarith), min_eq_left h]

lemma clip_le_zero (r : ℚ) (h : r ≤ 0) : FV.clip 0 1 (FV.fin r) = FV.fin 0 := by
  rw [FV.clip, max_eq_left h, min_eq_right (by norm_num : (0 : ℚ) ≤ 1)]

lemma fv_div_fin_zero_neg (a : ℚ) (ha : a < 0) :
    FV.div (FV.fin a) (FV.fin 0) = FV.ninf := by
  simp [FV.div, ha.ne, not_lt.mpr (le_of_lt ha)]

lemma length_rollL (agg : List FV → FV) (w : ℕ) (xs : List FV) :
    (rollL agg w xs).length = xs.length := by
  rw [rollL, length_idxMap]

/-- The Bollinger position cell at an in-range row, in terms of the rolling
mean and rolling standard deviation values at the row. -/
lemma bb_position_formula (ps : List ℚ) (i : ℕ) (hi : i < ps.length) (m s : ℚ)
    (hm : (rollL meanAgg 20 (ps.map FV.fin)).getD i FV.nan = FV.fin m)
    (hs : (rollL stdAgg 20 (ps.map FV.fin)).getD i FV.nan = FV.fin s) :
    ((calculate_bollinger_bands (ps.map FV.fin) 20 2).bb_position).getD i FV.nan
      = FV.clip 0 1 (FV.div (FV.fin (ps.getD i 0 - (m - s * 2)))
          (FV.fin ((m + s * 2) - (m - s * 2)))) := by
  have hS2 : ((rollL stdAgg 20 (ps.map FV.fin)).map
      (fun s => FV.mul s (FV.fin 2))).getD i FV.nan = FV.fin (s * 2) := by
    rw [getD_map _ _ _ (by simp [length_rollL]; omega), hs]
    rfl
  have hup : (List.zipWith FV.add (rollL meanAgg 20 (ps.map FV.fin))
      ((rollL stdAgg 20 (ps.map FV.fin)).map (fun s => FV.mul s (FV.fin 2)))).getD
        i FV.nan = FV.fin (m + s * 2) := by
    rw [getD_zipWith _ _ _ _ (by simp [length_rollL]; omega)
      (by simp [length_rollL]; omega), hm, hS2]
    rfl
  have hlow : (List.zipWith FV.sub (rollL meanAgg 20 (ps.map FV.fin))
      ((rollL stdAgg 20 (ps.map FV.fin)).map (fun s => FV.mul s (FV.fin 2)))).getD
        i FV.nan = FV.fin (m - s * 2) := by
    rw [getD_zipWith _ _ _ _ (by simp [length_rollL]; omega)
      (by simp [length_rollL]; omega), hm, hS2, fv_sub_fin]
  have hA : (List.zipWith FV.sub (ps.map FV.fin)
      (List.zipWith FV.sub (rollL meanAgg 20 (ps.map FV.fin))
        ((rollL stdAgg 20 (ps.map FV.fin)).map
          (fun s => FV.mul s (FV.fin 2))))).getD i FV.nan
      = FV.fin (ps.getD i 0 - (m - s * 2)) := by
    rw [getD_zipWith _ _ _ _ (by simp; omega)
      (by simp [List.length_zipWith, length_rollL]; omega),
      getD_map_fin _ _ hi, hlow, fv_sub_fin]
  have hB : (List.zipWith FV.sub
      (List.zipWith FV.add (rollL meanAgg 20 (ps.map FV.fin))
        ((rollL stdAgg 20 (ps.map FV.fin)).map (fun s => FV.mul s (FV.fin 2))))
      (List.zipWith FV.sub (rollL meanAgg 20 (ps.map FV.fin))
        ((rollL stdAgg 20 (ps.map FV.fin)).map
          (fun s => FV.mul s (FV.fin 2))))).getD i FV.nan
      = FV.fin ((m + s * 2) - (m - s * 2)) := by
    rw [getD_zipWith _ _ _ _ (by simp [List.length_zipWith, length_rollL]; omega)
      (by simp [List.length_zipWith, length_rollL]; omega), hup, hlow, fv_sub_fin]
  simp only [calculate_bollinger_bands]
  rw [getD_map _ _ _ (by simp [List.length_zipWith, length_rollL]; omega),
    getD_zipWith _ _ _ _ (by simp [List.length_zipWith, length_rollL]; omega)
      (by simp [List.length_zipWith, length_rollL]; omega), hA, hB]

/-- C8: `bb_position` is clamped into `[0, 1]` wherever it is defined; a
price strictly above the computed upper band forces `bb_position = 1`
exactly, and a price strictly below the lower band forces `bb_position = 0`
exactly (the clip also absorbs the infinite ratio of a zero-width band). -/
theorem c8_bb_position_clamp (ps : List ℚ) :
    (∀ i q, ((calculate_bollinger_bands (ps.map FV.fin) 20 2).bb_position).getD
        i FV.nan = FV.fin q → 0 ≤ q ∧ q ≤ 1) ∧
    (∀ i u, i < ps.length →
      ((calculate_bollinger_bands (ps.map FV.fin) 20 2).bb_upper).getD
        i FV.nan = FV.fin u →
      u < ps.getD i 0 →
      ((calculate_bollinger_bands (ps.map FV.fin) 20 2).bb_position).getD
        i FV.nan = FV.fin 1) ∧
    (∀ i l, i < ps.length →
      ((calculate_bollinger_bands (ps.map FV.fin) 20 2).bb_lower).getD
        i FV.nan = FV.fin l →
      ps.getD i 0 < l →
      ((calculate_bollinger_bands (ps.map FV.fin) 20 2).bb_position).getD
        i FV.nan = FV.fin 0) := by
  refine ⟨?_, ?_, ?_⟩
  · intro i q h
    simp only [calculate_bollinger_bands] at h
    by_cases hi : i < ps.length
    · rw [getD_map _ _ _ (by simp [List.length_zipWith, length_rollL]; omega)] at h
      exact clip_fin_bounds _ _ h
    · rw [List.getD_eq_default _ _
        (by simp [List.length_zipWith, length_rollL]; omega)] at h
      exact absurd h (by simp)
  · intro i u hi hup hlt
    simp only [calculate_bollinger_bands] at hup
    rw [getD_zipWith _ _ _ _ (by simp [length_rollL]; omega)
      (by simp [length_rollL]; omega)] at hup
    rcases add_eq_fin _ _ _ hup with ⟨m, s2, hM, hS2', hsum⟩
    rw [getD_map _ _ _ (by simp [length_rollL]; omega)] at hS2'
    rcases mul_finc_eq_fin _ _ _ (by norm_num) hS2' with ⟨s, hS, hs2e⟩
    have hsnn : 0 ≤ s := by
      have hS' := hS
      rw [rollL_getD _ _ _ (by simp; omega)] at hS'
      exact stdAgg_fin_nonneg _ _ hS'
    rw [bb_position_formula ps i hi m s hM hS]
    by_cases hs0 : s = 0
    · have e1 : (m + s * 2) - (m - s * 2) = 0 := by rw [hs0]; ring
      have e2 : 0 < ps.getD i 0 - (m - s * 2) := by
        have : u = m := by rw [← hsum, ← hs2e, hs0]; ring
        rw [hs0]
        simp only [zero_mul, mul_zero]
        linarith [hlt, this]
      rw [e1, fv_div_fin_zero_pos _ e2]
      rfl
    · have hspos : 0 < s := lt_of_le_of_ne hsnn (Ne.symm hs0)
      have hdqpos : 0 < (m + s * 2) - (m - s * 2) := by linarith
      rw [fv_div_fin _ _ (ne_of_gt hdqpos)]
      apply clip_ge_one
      rw [one_le_div hdqpos]
      have : m + s * 2 = u := by rw [← hsum, hs2e]
      linarith
  · intro i l hi hlow hlt
    simp only [calculate_bollinger_bands] at hlow
    rw [getD_zipWith _ _ _ _ (by simp [length_rollL]; omega)
      (by simp [length_rollL]; omega)] at hlow
    rcases sub_eq_fin _ _ _ hlow with ⟨m, s2, hM, hS2', hsub⟩
    rw [getD_map _ _ _ (by simp [length_rollL]; omega)] at hS2'
    rcases mul_finc_eq_fin _ _ _ (by norm_num) hS2' with ⟨s, hS, hs2e⟩
    have hsnn : 0 ≤ s := by
      have hS' := hS
      rw [rollL_getD _ _ _ (by simp; omega)] at hS'
      exact stdAgg_fin_nonneg _ _ hS'
    rw [bb_position_formula ps i hi m s hM hS]
    have hml : m - s * 2 = l := by rw [← hsub, hs2e]
    by_cases hs0 : s = 0
    · have e1 : (m + s * 2) - (m - s * 2) = 0 := by rw [hs0]; ring
      have e2 : ps.getD i 0 - (m - s * 2) < 0 := by
        rw [hml]
        linarith
      rw [e1, fv_div_fin_zero_neg _ e2]
      rfl
    · have hspos : 0 < s := lt_of_le_of_ne hsnn (Ne.symm hs0)
      have hdqpos : 0 < (m + s * 2) - (m - s * 2) := by linarith
      rw [fv_div_fin _ _ (ne_of_gt hdqpos)]
      apply clip_le_zero
      apply le_of_lt
      apply div_neg_of_neg_of_pos _ hdqpos
      rw [hml]
      linarith

/-- C8 witness: a 20-point window ending in an upward outlier puts the price
above the computed upper band and the position clamps to exactly 1; the
mirrored downward outlier clamps to exactly 0. -/
theorem c8_bb_position_clamp_witness :
    ((calculate_bollinger_bands (((List.replicate 19 (100 : ℚ)) ++ [120]).map
      FV.fin) 20 2).bb_position).getD 19 FV.nan = FV.fin 1 ∧
    ((calculate_bollinger_bands (((List.replicate 19 (100 : ℚ)) ++ [80]).map
      FV.fin) 20 2).bb_position).getD 19 FV.nan = FV.fin 0 :=
  ⟨(c8_bb_position_clamp _).2.1 19 109 (by decide!) (by decide!) (by decide!),
   (c8_bb_position_clamp _).2.2 19 91 (by decide!) (by decide!) (by decide!)⟩

/-! ## C10 -/

lemma rows_engineer (input : List PricePoint) :
    (engineer_all_features input).rows = sortByTimestamp input := rfl

lemma getD_length_sub_one {α : Type} :
    ∀ (l : List α) (d : α) (h : l ≠ []), l.getD (l.length - 1) d = l.getLast h
  | [_], _, _ => rfl
  | x :: y :: tl, d, _ => by
      have ih := getD_length_sub_one (y :: tl) d (by simp)
      have e : (x :: y :: tl).length - 1 = ((y :: tl).length - 1) + 1 := by simp
      rw [e]
      show (y :: tl).getD ((y :: tl).length - 1) d = _
      rw [ih]
      exact (List.getLast_cons (by simp)).symm

lemma sorted_le_getLast :
    ∀ (l : List PricePoint), List.Sorted tsLe l → ∀ (h : l ≠ []) (x : PricePoint),
      x ∈ l → x.timestamp ≤ (l.getLast h).timestamp
  | [a], _, _, x, hx => by
      simp only [List.mem_singleton] at hx
      subst hx
      exact Nat.le_refl _
  | a :: b :: tl, hs, h, x, hx => by
      rw [List.getLast_cons (by simp : (b :: tl) ≠ [])]
      rcases List.mem_cons.mp hx with rfl | hx'
      · exact List.rel_of_sorted_cons hs _ (List.getLast_mem _)
      · exact sorted_le_getLast (b :: tl) hs.of_cons (by simp) x hx'

lemma getLast_orderedInsert {α : Type} (r : α → α → Prop) [DecidableRel r] :
    ∀ (M : List α) (b : α) (hM : M ≠ []), r b (M.getLast hM) →
      ∀ h', (List.orderedInsert r b M).getLast h' = M.getLast hM
  | [x], b, _, hb, h' => by
      have hbx : r b x := hb
      have hstep : List.orderedInsert r b [x] = [b, x] := by
        simp only [List.orderedInsert, if_pos hbx]
      rw [List.getLast_congr _ (by simp) hstep]
      rfl
  | x :: y :: tl, b, hM, hb, h' => by
      have hstep : List.orderedInsert r b (x :: y :: tl) =
          if r b x then b :: x :: y :: tl
          else x :: List.orderedInsert r b (y :: tl) := rfl
      by_cases hbx : r b x
      · rw [List.getLast_congr _ (by simp) (hstep.trans (if_pos hbx)),
          List.getLast_cons (by simp : (x :: y :: tl) ≠ [])]
      · have hne : List.orderedInsert r b (y :: tl) ≠ [] := by
          have hl := List.orderedInsert_length r (y :: tl) b
          intro hnil
          rw [hnil] at hl
          simp at hl
        have hb' : r b ((y :: tl).getLast (by simp)) := by
          rw [List.getLast_cons (by simp : (y :: tl) ≠ [])] at hb
          exact hb
        rw [List.getLast_congr _ (by simp [hne]) (hstep.trans (if_neg hbx)),
          List.getLast_cons hne,
          getLast_orderedInsert r (y :: tl) b (by simp) hb' hne]
        exact (List.getLast_cons (by simp : (y :: tl) ≠ [])).symm

lemma getLast_insertionSort_append {α : Type} (r : α → α → Prop) [DecidableRel r] :
    ∀ (l : List α) (a : α), (∀ x ∈ l, r x a) →
      ∀ h', (List.insertionSort r (l ++ [a])).getLast h' = a
  | [], _, _, _ => rfl
  | b :: l, a, hall, h' => by
      have hne : List.insertionSort r (l ++ [a]) ≠ [] := by
        intro hnil
        have := List.length_insertionSort r (l ++ [a])
        rw [hnil] at this
        simp at this
      have ih := getLast_insertionSort_append r l a
        (fun x hx => hall x (List.mem_cons_of_mem b hx)) hne
      have hb : r b ((List.insertionSort r (l ++ [a])).getLast hne) := by
        rw [ih]
        exact hall b (List.mem_cons_self b l)
      have h'' : List.orderedInsert r b (List.insertionSort r (l ++ [a])) ≠ [] := by
        intro hnil
        have := List.orderedInsert_length r (List.insertionSort r (l ++ [a])) b
        rw [hnil] at this
        simp at this
      calc (List.insertionSort r ((b :: l) ++ [a])).getLast h'
      _ = (List.orderedInsert r b (List.insertionSort r (l ++ [a]))).getLast h'' := by
          apply List.getLast_congr
          simp [List.insertionSort]
      _ = (List.insertionSort r (l ++ [a])).getLast hne :=
          getLast_orderedInsert r _ b hne hb h''
      _ = a := ih

/-- C10: the record returned by `enrich_single_record` is the row with the
maximum timestamp of the combined sequence (trailing window plus appended
new point), because `engineer_all_features` re-sorts before `iloc[-1]`; it
describes the supplied new point exactly when the new point's timestamp is
greater than or equal to every timestamp in the window — otherwise a
historical point's record is silently returned. -/
theorem c10_last_row_max_timestamp (table : List PricePoint) (p : ℚ) (t : ℕ)
    (s : String) (hne : table ≠ []) :
    ∃ r, enrich_single_record table p t s = some r ∧
      (∀ x ∈ ((sortByTimestamp table).reverse.take 100).reverse ++
          [(⟨p, t, s⟩ : PricePoint)], x.timestamp ≤ r.timestamp) ∧
      r.timestamp ∈ (((sortByTimestamp table).reverse.take 100).reverse ++
          [(⟨p, t, s⟩ : PricePoint)]).map PricePoint.timestamp ∧
      ((r.price = p ∧ r.timestamp = t ∧ r.source = s) ↔
        (∀ x ∈ ((sortByTimestamp table).reverse.take 100).reverse,
          x.timestamp ≤ t)) := by
  have hlen : (sortByTimestamp table).length = table.length :=
    List.length_insertionSort tsLe table
  have hsortne : sortByTimestamp table ≠ [] := by
    intro hnil
    rw [hnil] at hlen
    exact hne (List.length_eq_zero.mp hlen.symm)
  have htake : ((sortByTimestamp table).reverse.take 100) ≠ [] := by
    intro hnil
    rcases List.take_eq_nil_iff.mp hnil with h100 | hrev
    · exact absurd h100 (by norm_num)
    · exact hsortne (List.reverse_eq_nil_iff.mp hrev)
  have hq : ((sortByTimestamp table).reverse.take 100).isEmpty = false := by
    rw [List.isEmpty_eq_false]
    exact htake
  have henrich : enrich_single_record table p t s =
      some (prepare_enriched_record
        (engineer_all_features (((sortByTimestamp table).reverse.take 100).reverse
          ++ [⟨p, t, s⟩]))
        ((engineer_all_features (((sortByTimestamp table).reverse.take 100).reverse
          ++ [⟨p, t, s⟩])).rows.length - 1)) := by
    simp only [enrich_single_record, hq, Bool.false_eq_true, if_false]
  refine ⟨_, henrich, ?_, ?_, ?_⟩
  all_goals
    set data := ((sortByTimestamp table).reverse.take 100).reverse ++
      [(⟨p, t, s⟩ : PricePoint)] with hdata
  all_goals
    have hrows : (engineer_all_features data).rows = sortByTimestamp data :=
      rows_engineer data
  all_goals
    have hrlen : (sortByTimestamp data).length = data.length :=
      List.length_insertionSort tsLe data
  all_goals
    have hdne : data ≠ [] := by simp [hdata]
  all_goals
    have hrne : sortByTimestamp data ≠ [] := by
      intro hnil
      rw [hnil] at hrlen
      exact hdne (List.length_eq_zero.mp hrlen.symm)
  all_goals
    have hgetD : (sortByTimestamp data).getD ((sortByTimestamp data).length - 1)
        default = (sortByTimestamp data).getLast hrne :=
      getD_length_sub_one _ _ hrne
  all_goals
    have hperm : List.Perm (sortByTimestamp data) data :=
      List.perm_insertionSort tsLe data
  all_goals
    have hsorted : List.Sorted tsLe (sortByTimestamp data) :=
      List.sorted_insertionSort tsLe data
  all_goals
    have hr_ts : (prepare_enriched_record (engineer_all_features data)
        ((engineer_all_features data).rows.length - 1)).timestamp
        = ((sortByTimestamp data).getLast hrne).timestamp := by
      show ((engineer_all_features data).rows.getD
        ((engineer_all_features data).rows.length - 1) default).timestamp = _
      rw [hrows, hgetD]
  all_goals
    have hr_pr : (prepare_enriched_record (engineer_all_features data)
        ((engineer_all_features data).rows.length - 1)).price
        = ((sortByTimestamp data).getLast hrne).price := by
      show ((engineer_all_features data).rows.getD
        ((engineer_all_features data).rows.length - 1) default).price = _
      rw [hrows, hgetD]
  all_goals
    have hr_src : (prepare_enriched_record (engineer_all_features data)
        ((engineer_all_features data).rows.length - 1)).source
        = ((sortByTimestamp data).getLast hrne).source := by
      show ((engineer_all_features data).rows.getD
        ((engineer_all_features data).rows.length - 1) default).source = _
      rw [hrows, hgetD]
  · -- upper bound
    intro x hx
    have hx' : x ∈ sortByTimestamp data := hperm.mem_iff.mpr hx
    have hub := sorted_le_getLast _ hsorted hrne x hx'
    rw [hr_ts]
    exact hub
  · -- the returned timestamp occurs in the combined sequence
    have hmem : (sortByTimestamp data).getLast hrne ∈ data :=
      hperm.mem_iff.mp (List.getLast_mem hrne)
    rw [hr_ts]
    exact List.mem_map_of_mem _ hmem
  · constructor
    · rintro ⟨-, ht', -⟩ x hx
      have hx' : x ∈ sortByTimestamp data :=
        hperm.mem_iff.mpr (List.mem_append_left _ hx)
      have hub := sorted_le_getLast _ hsorted hrne x hx'
      rw [hr_ts] at ht'
      omega
    · intro hall
      have hlast : (sortByTimestamp data).getLast hrne = ⟨p, t, s⟩ :=
        getLast_insertionSort_append tsLe _ (⟨p, t, s⟩ : PricePoint)
          (fun x hx => show tsLe x ⟨p, t, s⟩ from hall x hx) _
      exact ⟨by rw [hr_pr, hlast], by rw [hr_ts, hlast], by rw [hr_src, hlast]⟩

/-- C10 witness: the characterization instantiated on a one-point table and
an in-order new point. -/
theorem c10_last_row_max_timestamp_witness :
    ∃ r, enrich_single_record [⟨100, 0, "b"⟩] 101 1 "b" = some r ∧
      (∀ x ∈ ((sortByTimestamp [⟨100, 0, "b"⟩]).reverse.take 100).reverse ++
          [(⟨101, 1, "b"⟩ : PricePoint)], x.timestamp ≤ r.timestamp) ∧
      r.timestamp ∈ (((sortByTimestamp [⟨100, 0, "b"⟩]).reverse.take 100).reverse ++
          [(⟨101, 1, "b"⟩ : PricePoint)]).map PricePoint.timestamp ∧
      ((r.price = 101 ∧ r.timestamp = 1 ∧ r.source = "b") ↔
        (∀ x ∈ ((sortByTimestamp [⟨100, 0, "b"⟩]).reverse.take 100).reverse,
          x.timestamp ≤ 1)) :=
  c10_last_row_max_timestamp [⟨100, 0, "b"⟩] 101 1 "b" (by decide)

/-! ## C1

No-lookahead machinery: two series of equal length that agree on rows
`0..i` (`agreeUpTo i`) stay in agreement under every causal transform of
the pipeline, and their cells at row `i` coincide.  `price_normalized` is
the one non-causal column. -/

/-- Two series of equal length agreeing on all cells up to row `i`. -/
def agreeUpTo {α : Type} (i : ℕ) (xs ys : List α) : Prop :=
  xs.length = ys.length ∧ xs.take (i + 1) = ys.take (i + 1)

lemma getD_take' {α : Type} (xs : List α) (n k : ℕ) (d : α) (h : k < n) :
    (xs.take n).getD k d = xs.getD k d := by
  rw [List.getD, List.getD, List.get?_eq_getElem?, List.get?_eq_getElem?,
    List.getElem?_take, if_pos h]

lemma agreeUpTo_getD {α : Type} {i : ℕ} {xs ys : List α} (h : agreeUpTo i xs ys)
    (k : ℕ) (hk : k ≤ i) (d : α) : xs.getD k d = ys.getD k d := by
  rw [← getD_take' xs (i + 1) k d (by omega), h.2,
    getD_take' ys (i + 1) k d (by omega)]

lemma agreeUpTo_idxMap (i n : ℕ) (f g : ℕ → FV) (hfg : ∀ j, j ≤ i → f j = g j) :
    agreeUpTo i (idxMap n f) (idxMap n g) := by
  refine ⟨by simp [idxMap], ?_⟩
  rw [idxMap, idxMap, ← List.map_take, ← List.map_take, List.take_range]
  exact List.map_congr_left (fun a ha => hfg a (by
    have := List.mem_range.mp ha
    omega))

lemma agreeUpTo_map {α β : Type} {i : ℕ} {xs ys : List α} (g : α → β)
    (h : agreeUpTo i xs ys) : agreeUpTo i (xs.map g) (ys.map g) :=
  ⟨by simp [h.1], by rw [← List.map_take, ← List.map_take, h.2]⟩

lemma agreeUpTo_zipWith {α β γ : Type} {i : ℕ} {xs ys : List α} {us vs : List β}
    (f : α → β → γ) (h : agreeUpTo i xs ys) (h' : agreeUpTo i us vs) :
    agreeUpTo i (List.zipWith f xs us) (List.zipWith f ys vs) := by
  refine ⟨by simp [List.length_zipWith, h.1, h'.1], ?_⟩
  rw [List.take_zipWith, List.take_zipWith, h.2, h'.2]

lemma agreeUpTo_zip {α β : Type} {i : ℕ} {xs ys : List α} {us vs : List β}
    (h : agreeUpTo i xs ys) (h' : agreeUpTo i us vs) :
    agreeUpTo i (List.zip xs us) (List.zip ys vs) :=
  agreeUpTo_zipWith Prod.mk h h'

lemma agreeUpTo_shiftL {i : ℕ} {xs ys : List FV} (k : ℕ) (h : agreeUpTo i xs ys) :
    agreeUpTo i (shiftL k xs) (shiftL k ys) := by
  rw [shiftL, shiftL, h.1]
  exact agreeUpTo_idxMap i ys.length _ _ (fun j hj => by
    by_cases hk : k ≤ j
    · simp only [if_pos hk]
      rw [agreeUpTo_getD h (j - k) (by omega)]
    · simp only [if_neg hk])

lemma agreeUpTo_diffL {i : ℕ} {xs ys : List FV} (k : ℕ) (h : agreeUpTo i xs ys) :
    agreeUpTo i (diffL k xs) (diffL k ys) := by
  rw [diffL, diffL, h.1]
  exact agreeUpTo_idxMap i ys.length _ _ (fun j hj => by
    by_cases hk : k ≤ j
    · simp only [if_pos hk]
      rw [agreeUpTo_getD h j hj, agreeUpTo_getD h (j - k) (by omega)]
    · simp only [if_neg hk])

lemma agreeUpTo_pctL {i : ℕ} {xs ys : List FV} (k : ℕ) (h : agreeUpTo i xs ys) :
    agreeUpTo i (pctL k xs) (pctL k ys) := by
  rw [pctL, pctL, h.1]
  exact agreeUpTo_idxMap i ys.length _ _ (fun j hj => by
    by_cases hk : k ≤ j
    · simp only [if_pos hk]
      rw [agreeUpTo_getD h j hj, agreeUpTo_getD h (j - k) (by omega)]
    · simp only [if_neg hk])

lemma windowSlice_congr {α : Type} {i : ℕ} {xs ys : List α} (w j : ℕ)
    (hj : j ≤ i) (h : xs.take (i + 1) = ys.take (i + 1)) :
    windowSlice w xs j = windowSlice w ys j := by
  rw [windowSlice, windowSlice,
    show xs.take (j + 1) = (xs.take (i + 1)).take (j + 1) from by
      rw [List.take_take, min_eq_left (by omega)],
    show ys.take (j + 1) = (ys.take (i + 1)).take (j + 1) from by
      rw [List.take_take, min_eq_left (by omega)],
    h]

lemma agreeUpTo_rollL {i : ℕ} {xs ys : List FV} (agg : List FV → FV) (w : ℕ)
    (h : agreeUpTo i xs ys) : agreeUpTo i (rollL agg w xs) (rollL agg w ys) := by
  rw [rollL, rollL, h.1]
  exact agreeUpTo_idxMap i ys.length _ _ (fun j hj => by
    rw [windowSlice_congr w j hj h.2])

lemma agreeUpTo_ewmaL {i : ℕ} {xs ys : List FV} (span : ℕ)
    (h : agreeUpTo i xs ys) : agreeUpTo i (ewmaL span xs) (ewmaL span ys) := by
  rw [ewmaL, ewmaL, h.1]
  refine agreeUpTo_idxMap i ys.length _ _ (fun j hj => ?_)
  have hfm : (List.range (j + 1)).filterMap (fun j' =>
      match xs.getD j' FV.nan with
      | FV.fin q => some ((ewmDecay span) ^ (j - j'), q)
      | _ => none) = (List.range (j + 1)).filterMap (fun j' =>
      match ys.getD j' FV.nan with
      | FV.fin q => some ((ewmDecay span) ^ (j - j'), q)
      | _ => none) := by
    apply List.filterMap_congr
    intro a ha
    rw [agreeUpTo_getD h a (by
      have := List.mem_range.mp ha
      omega)]
  simp only [hfm]

lemma agreeUpTo_rsi {i : ℕ} {xs ys : List FV} (h : agreeUpTo i xs ys) :
    agreeUpTo i (calculate_rsi xs 14) (calculate_rsi ys 14) := by
  simp only [calculate_rsi]
  exact agreeUpTo_map _
    (agreeUpTo_zipWith _
      (agreeUpTo_rollL _ _ (agreeUpTo_map _ (agreeUpTo_diffL 1 h)))
      (agreeUpTo_rollL _ _
        (agreeUpTo_map _ (agreeUpTo_map _ (agreeUpTo_diffL 1 h)))))

lemma agreeUpTo_macd_line {i : ℕ} {xs ys : List FV} (h : agreeUpTo i xs ys) :
    agreeUpTo i (calculate_macd xs 12 26 9).1 (calculate_macd ys 12 26 9).1 := by
  show agreeUpTo i (List.zipWith FV.sub (ewmaL 12 xs) (ewmaL 26 xs))
    (List.zipWith FV.sub (ewmaL 12 ys) (ewmaL 26 ys))
  exact agreeUpTo_zipWith _ (agreeUpTo_ewmaL 12 h) (agreeUpTo_ewmaL 26 h)

lemma agreeUpTo_macd_signal {i : ℕ} {xs ys : List FV} (h : agreeUpTo i xs ys) :
    agreeUpTo i (calculate_macd xs 12 26 9).2.1 (calculate_macd ys 12 26 9).2.1 := by
  show agreeUpTo i (ewmaL 9 (List.zipWith FV.sub (ewmaL 12 xs) (ewmaL 26 xs)))
    (ewmaL 9 (List.zipWith FV.sub (ewmaL 12 ys) (ewmaL 26 ys)))
  exact agreeUpTo_ewmaL 9 (agreeUpTo_macd_line h)

lemma agreeUpTo_macd_histogram {i : ℕ} {xs ys : List FV} (h : agreeUpTo i xs ys) :
    agreeUpTo i (calculate_macd xs 12 26 9).2.2 (calculate_macd ys 12 26 9).2.2 := by
  show agreeUpTo i (List.zipWith FV.sub (calculate_macd xs 12 26 9).1
      (calculate_macd xs 12 26 9).2.1)
    (List.zipWith FV.sub (calculate_macd ys 12 26 9).1
      (calculate_macd ys 12 26 9).2.1)
  exact agreeUpTo_zipWith _ (agreeUpTo_macd_line h) (agreeUpTo_macd_signal h)

lemma agreeUpTo_bb_S2 {i : ℕ} {xs ys : List FV} (h : agreeUpTo i xs ys) :
    agreeUpTo i ((rollL stdAgg 20 xs).map (fun s => FV.mul s (FV.fin 2)))
      ((rollL stdAgg 20 ys).map (fun s => FV.mul s (FV.fin 2))) :=
  agreeUpTo_map _ (agreeUpTo_rollL _ _ h)

lemma agreeUpTo_bb_upper {i : ℕ} {xs ys : List FV} (h : agreeUpTo i xs ys) :
    agreeUpTo i (calculate_bollinger_bands xs 20 2).bb_upper
      (calculate_bollinger_bands ys 20 2).bb_upper := by
  show agreeUpTo i (List.zipWith FV.add (rollL meanAgg 20 xs)
      ((rollL stdAgg 20 xs).map (fun s => FV.mul s (FV.fin 2))))
    (List.zipWith FV.add (rollL meanAgg 20 ys)
      ((rollL stdAgg 20 ys).map (fun s => FV.mul s (FV.fin 2))))
  exact agreeUpTo_zipWith _ (agreeUpTo_rollL _ _ h) (agreeUpTo_bb_S2 h)

lemma agreeUpTo_bb_lower {i : ℕ} {xs ys : List FV} (h : agreeUpTo i xs ys) :
    agreeUpTo i (calculate_bollinger_bands xs 20 2).bb_lower
      (calculate_bollinger_bands ys 20 2).bb_lower := by
  show agreeUpTo i (List.zipWith FV.sub (rollL meanAgg 20 xs)
      ((rollL stdAgg 20 xs).map (fun s => FV.mul s (FV.fin 2))))
    (List.zipWith FV.sub (rollL meanAgg 20 ys)
      ((rollL stdAgg 20 ys).map (fun s => FV.mul s (FV.fin 2))))
  exact agreeUpTo_zipWith _ (agreeUpTo_rollL _ _ h) (agreeUpTo_bb_S2 h)

lemma agreeUpTo_bb_middle {i : ℕ} {xs ys : List FV} (h : agreeUpTo i xs ys) :
    agreeUpTo i (calculate_bollinger_bands xs 20 2).bb_middle
      (calculate_bollinger_bands ys 20 2).bb_middle := by
  show agreeUpTo i (rollL meanAgg 20 xs) (rollL meanAgg 20 ys)
  exact agreeUpTo_rollL _ _ h

lemma agreeUpTo_bb_width {i : ℕ} {xs ys : List FV} (h : agreeUpTo i xs ys) :
    agreeUpTo i (calculate_bollinger_bands xs 20 2).bb_width
      (calculate_bollinger_bands ys 20 2).bb_width := by
  show agreeUpTo i (List.zipWith FV.sub (calculate_bollinger_bands xs 20 2).bb_upper
      (calculate_bollinger_bands xs 20 2).bb_lower)
    (List.zipWith FV.sub (calculate_bollinger_bands ys 20 2).bb_upper
      (calculate_bollinger_bands ys 20 2).bb_lower)
  exact agreeUpTo_zipWith _ (agreeUpTo_bb_upper h) (agreeUpTo_bb_lower h)

lemma agreeUpTo_bb_position {i : ℕ} {xs ys : List FV} (h : agreeUpTo i xs ys) :
    agreeUpTo i (calculate_bollinger_bands xs 20 2).bb_position
      (calculate_bollinger_bands ys 20 2).bb_position := by
  show agreeUpTo i ((List.zipWith FV.div
      (List.zipWith FV.sub xs (calculate_bollinger_bands xs 20 2).bb_lower)
      (List.zipWith FV.sub (calculate_bollinger_bands xs 20 2).bb_upper
        (calculate_bollinger_bands xs 20 2).bb_lower)).map (FV.clip 0 1))
    ((List.zipWith FV.div
      (List.zipWith FV.sub ys (calculate_bollinger_bands ys 20 2).bb_lower)
      (List.zipWith FV.sub (calculate_bollinger_bands ys 20 2).bb_upper
        (calculate_bollinger_bands ys 20 2).bb_lower)).map (FV.clip 0 1))
  exact agreeUpTo_map _ (agreeUpTo_zipWith _
    (agreeUpTo_zipWith _ h (agreeUpTo_bb_lower h))
    (agreeUpTo_zipWith _ (agreeUpTo_bb_upper h) (agreeUpTo_bb_lower h)))

lemma agreeUpTo_atr {i : ℕ} {xs ys : List FV} (h : agreeUpTo i xs ys) :
    agreeUpTo i (calculate_atr xs xs xs 14) (calculate_atr ys ys ys 14) := by
  simp only [calculate_atr]
  exact agreeUpTo_rollL _ _ (agreeUpTo_zipWith _
    (agreeUpTo_zip (agreeUpTo_zipWith _ h h)
      (agreeUpTo_map _ (agreeUpTo_zipWith _ h (agreeUpTo_shiftL 1 h))))
    (agreeUpTo_map _ (agreeUpTo_zipWith _ h (agreeUpTo_shiftL 1 h))))

lemma agreeUpTo_stoch_k {i : ℕ} {xs ys : List FV} (h : agreeUpTo i xs ys) :
    agreeUpTo i (calculate_stochastic xs xs xs 14 3).1
      (calculate_stochastic ys ys ys 14 3).1 := by
  show agreeUpTo i ((List.zipWith FV.div
      (List.zipWith FV.sub xs (rollL minAgg 14 xs))
      (List.zipWith FV.sub (rollL maxAgg 14 xs) (rollL minAgg 14 xs))).map
        (fun v => FV.mul (FV.fin 100) v))
    ((List.zipWith FV.div
      (List.zipWith FV.sub ys (rollL minAgg 14 ys))
      (List.zipWith FV.sub (rollL maxAgg 14 ys) (rollL minAgg 14 ys))).map
        (fun v => FV.mul (FV.fin 100) v))
  exact agreeUpTo_map _ (agreeUpTo_zipWith _
    (agreeUpTo_zipWith _ h (agreeUpTo_rollL _ _ h))
    (agreeUpTo_zipWith _ (agreeUpTo_rollL _ _ h) (agreeUpTo_rollL _ _ h)))

lemma agreeUpTo_stoch_d {i : ℕ} {xs ys : List FV} (h : agreeUpTo i xs ys) :
    agreeUpTo i (calculate_stochastic xs xs xs 14 3).2
      (calculate_stochastic ys ys ys 14 3).2 := by
  show agreeUpTo i (rollL meanAgg 3 (calculate_stochastic xs xs xs 14 3).1)
    (rollL meanAgg 3 (calculate_stochastic ys ys ys 14 3).1)
  exact agreeUpTo_rollL _ _ (agreeUpTo_stoch_k h)

lemma sorted_tsLe_of_pairwise :
    ∀ (l : List PricePoint),
      (l.map PricePoint.timestamp).Pairwise (· ≤ ·) → List.Sorted tsLe l
  | [], _ => List.Pairwise.nil
  | a :: tl, h => by
      rw [List.map_cons, List.pairwise_cons] at h
      exact List.Pairwise.cons
        (fun b hb => h.1 b.timestamp (List.mem_map_of_mem _ hb))
        (sorted_tsLe_of_pairwise tl h.2)

lemma pairwise_of_sorted_tsLe :
    ∀ (l : List PricePoint),
      List.Sorted tsLe l → (l.map PricePoint.timestamp).Pairwise (· ≤ ·)
  | [], _ => List.Pairwise.nil
  | a :: tl, h => by
      rw [List.map_cons, List.pairwise_cons]
      rw [List.Sorted, List.pairwise_cons] at h
      refine ⟨fun t ht => ?_, pairwise_of_sorted_tsLe tl h.2⟩
      rcases List.mem_map.mp ht with ⟨b, hb, rfl⟩
      exact h.1 b hb

/-- C1 as amended: over a timestamp-ordered series, every feature column
except `price_normalized` is causal — perturbing prices strictly after row
`i` (same timestamps, same prices up to row `i`) leaves the value at row `i`
unchanged.  `price_normalized` is excluded: it min–max-scales over the whole
batch (see `c1_counterexample`). -/
theorem c1_no_lookahead (ps qs : List PricePoint) (i : ℕ) (c : String)
    (hts : ps.map PricePoint.timestamp = qs.map PricePoint.timestamp)
    (hsort : List.Sorted tsLe ps)
    (hpr : (ps.map PricePoint.price).take (i + 1)
      = (qs.map PricePoint.price).take (i + 1))
    (hc : c ∈ get_feature_columns) (hne : c ≠ "price_normalized") :
    (engineer_all_features ps).valAt c i = (engineer_all_features qs).valAt c i := by
  have hlen : ps.length = qs.length := by
    have := congrArg List.length hts
    simpa using this
  have hsortq : List.Sorted tsLe qs := by
    have h1 := pairwise_of_sorted_tsLe ps hsort
    rw [hts] at h1
    exact sorted_tsLe_of_pairwise qs h1
  have hsps : sortByTimestamp ps = ps := hsort.insertionSort_eq
  have hsqs : sortByTimestamp qs = qs := hsortq.insertionSort_eq
  have hmaps : ∀ (l : List PricePoint),
      (l.map (fun p => FV.fin p.price)).take (i + 1)
        = ((l.map PricePoint.price).take (i + 1)).map FV.fin := by
    intro l
    rw [← List.map_take, ← List.map_take, List.map_map]
    rfl
  have hP : agreeUpTo i (framePrices ps) (framePrices qs) := by
    constructor
    · simp [framePrices, hsps, hsqs, hlen]
    · rw [framePrices, framePrices, hsps, hsqs, hmaps ps, hmaps qs, hpr]
  have htimes : frameTimes ps = frameTimes qs := by
    rw [frameTimes, frameTimes, hsps, hsqs]
    exact hts
  simp only [get_feature_columns, List.mem_cons, List.not_mem_nil, or_false] at hc
  rcases hc with rfl | rfl | rfl | rfl | rfl | rfl | rfl | rfl | rfl | rfl | rfl |
    rfl | rfl | rfl | rfl | rfl | rfl | rfl | rfl | rfl | rfl | rfl | rfl | rfl |
    rfl | rfl | rfl | rfl | rfl | rfl | rfl | rfl | rfl | rfl | rfl | rfl | rfl |
    rfl | rfl | rfl | rfl | rfl | rfl
  · rw [Frame.valAt, Frame.valAt, col_minute_of_hour, col_minute_of_hour, htimes]
  · rw [Frame.valAt, Frame.valAt, col_hour_of_day, col_hour_of_day, htimes]
  · rw [Frame.valAt, Frame.valAt, col_day_of_week, col_day_of_week, htimes]
  · rw [Frame.valAt, Frame.valAt, col_week_of_year, col_week_of_year, htimes]
  · rw [Frame.valAt, Frame.valAt, col_price_lag_1min, col_price_lag_1min]
    exact agreeUpTo_getD (agreeUpTo_shiftL 1 hP) i (le_refl i) _
  · rw [Frame.valAt, Frame.valAt, col_price_lag_5min, col_price_lag_5min]
    exact agreeUpTo_getD (agreeUpTo_shiftL 5 hP) i (le_refl i) _
  · rw [Frame.valAt, Frame.valAt, col_price_lag_15min, col_price_lag_15min]
    exact agreeUpTo_getD (agreeUpTo_shiftL 15 hP) i (le_refl i) _
  · rw [Frame.valAt, Frame.valAt, col_price_lag_30min, col_price_lag_30min]
    exact agreeUpTo_getD (agreeUpTo_shiftL 30 hP) i (le_refl i) _
  · rw [Frame.valAt, Frame.valAt, col_price_lag_60min, col_price_lag_60min]
    exact agreeUpTo_getD (agreeUpTo_shiftL 60 hP) i (le_refl i) _
  · rw [Frame.valAt, Frame.valAt, col_rolling_mean_5min, col_rolling_mean_5min]
    exact agreeUpTo_getD (agreeUpTo_rollL _ _ hP) i (le_refl i) _
  · rw [Frame.valAt, Frame.valAt, col_rolling_mean_15min, col_rolling_mean_15min]
    exact agreeUpTo_getD (agreeUpTo_rollL _ _ hP) i (le_refl i) _
  · rw [Frame.valAt, Frame.valAt, col_rolling_mean_30min, col_rolling_mean_30min]
    exact agreeUpTo_getD (agreeUpTo_rollL _ _ hP) i (le_refl i) _
  · rw [Frame.valAt, Frame.valAt, col_rolling_mean_60min, col_rolling_mean_60min]
    exact agreeUpTo_getD (agreeUpTo_rollL _ _ hP) i (le_refl i) _
  · rw [Frame.valAt, Frame.valAt, col_rolling_std_5min, col_rolling_std_5min]
    exact agreeUpTo_getD (agreeUpTo_rollL _ _ hP) i (le_refl i) _
  · rw [Frame.valAt, Frame.valAt, col_rolling_std_15min, col_rolling_std_15min]
    exact agreeUpTo_getD (agreeUpTo_rollL _ _ hP) i (le_refl i) _
  · rw [Frame.valAt, Frame.valAt, col_rolling_std_30min, col_rolling_std_30min]
    exact agreeUpTo_getD (agreeUpTo_rollL _ _ hP) i (le_refl i) _
  · rw [Frame.valAt, Frame.valAt, col_rolling_std_60min, col_rolling_std_60min]
    exact agreeUpTo_getD (agreeUpTo_rollL _ _ hP) i (le_refl i) _
  · rw [Frame.valAt, Frame.valAt, col_rolling_min_30min, col_rolling_min_30min]
    exact agreeUpTo_getD (agreeUpTo_rollL _ _ hP) i (le_refl i) _
  · rw [Frame.valAt, Frame.valAt, col_rolling_max_30min, col_rolling_max_30min]
    exact agreeUpTo_getD (agreeUpTo_rollL _ _ hP) i (le_refl i) _
  · rw [Frame.valAt, Frame.valAt, col_rsi_14, col_rsi_14]
    exact agreeUpTo_getD (agreeUpTo_rsi hP) i (le_refl i) _
  · rw [Frame.valAt, Frame.valAt, col_macd_line, col_macd_line]
    exact agreeUpTo_getD (agreeUpTo_macd_line hP) i (le_refl i) _
  · rw [Frame.valAt, Frame.valAt, col_macd_signal, col_macd_signal]
    exact agreeUpTo_getD (agreeUpTo_macd_signal hP) i (le_refl i) _
  · rw [Frame.valAt, Frame.valAt, col_macd_histogram, col_macd_histogram]
    exact agreeUpTo_getD (agreeUpTo_macd_histogram hP) i (le_refl i) _
  · rw [Frame.valAt, Frame.valAt, col_bb_upper, col_bb_upper]
    exact agreeUpTo_getD (agreeUpTo_bb_upper hP) i (le_refl i) _
  · rw [Frame.valAt, Frame.valAt, col_bb_middle, col_bb_middle]
    exact agreeUpTo_getD (agreeUpTo_bb_middle hP) i (le_refl i) _
  · rw [Frame.valAt, Frame.valAt, col_bb_lower, col_bb_lower]
    exact agreeUpTo_getD (agreeUpTo_bb_lower hP) i (le_refl i) _
  · rw [Frame.valAt, Frame.valAt, col_bb_width, col_bb_width]
    exact agreeUpTo_getD (agreeUpTo_bb_width hP) i (le_refl i) _
  · rw [Frame.valAt, Frame.valAt, col_bb_position, col_bb_position]
    exact agreeUpTo_getD (agreeUpTo_bb_position hP) i (le_refl i) _
  · rw [Frame.valAt, Frame.valAt, col_atr_14, col_atr_14]
    exact agreeUpTo_getD (agreeUpTo_atr hP) i (le_refl i) _
  · rw [Frame.valAt, Frame.valAt, col_stoch_k, col_stoch_k]
    exact agreeUpTo_getD (agreeUpTo_stoch_k hP) i (le_refl i) _
  · rw [Frame.valAt, Frame.valAt, col_stoch_d, col_stoch_d]
    exact agreeUpTo_getD (agreeUpTo_stoch_d hP) i (le_refl i) _
  · rw [Frame.valAt, Frame.valAt, col_price_change_1min, col_price_change_1min]
    exact agreeUpTo_getD (agreeUpTo_diffL 1 hP) i (le_refl i) _
  · rw [Frame.valAt, Frame.valAt, col_price_change_5min, col_price_change_5min]
    exact agreeUpTo_getD (agreeUpTo_diffL 5 hP) i (le_refl i) _
  · rw [Frame.valAt, Frame.valAt, col_price_change_15min, col_price_change_15min]
    exact agreeUpTo_getD (agreeUpTo_diffL 15 hP) i (le_refl i) _
  · rw [Frame.valAt, Frame.valAt, col_price_change_pct_1min,
      col_price_change_pct_1min]
    exact agreeUpTo_getD (agreeUpTo_pctL 1 hP) i (le_refl i) _
  · rw [Frame.valAt, Frame.valAt, col_price_change_pct_5min,
      col_price_change_pct_5min]
    exact agreeUpTo_getD (agreeUpTo_pctL 5 hP) i (le_refl i) _
  · rw [Frame.valAt, Frame.valAt, col_price_change_pct_15min,
      col_price_change_pct_15min]
    exact agreeUpTo_getD (agreeUpTo_pctL 15 hP) i (le_refl i) _
  · rw [Frame.valAt, Frame.valAt, col_volatility_30min, col_volatility_30min]
    exact agreeUpTo_getD (agreeUpTo_rollL _ _ hP) i (le_refl i) _
  · rw [Frame.valAt, Frame.valAt, col_momentum_5min, col_momentum_5min]
    exact agreeUpTo_getD (agreeUpTo_zipWith _ hP (agreeUpTo_shiftL 5 hP)) i
      (le_refl i) _
  · rw [Frame.valAt, Frame.valAt, col_momentum_15min, col_momentum_15min]
    exact agreeUpTo_getD (agreeUpTo_zipWith _ hP (agreeUpTo_shiftL 15 hP)) i
      (le_refl i) _
  · rw [Frame.valAt, Frame.valAt, col_momentum_30min, col_momentum_30min]
    exact agreeUpTo_getD (agreeUpTo_zipWith _ hP (agreeUpTo_shiftL 30 hP)) i
      (le_refl i) _
  · exact absurd rfl hne
  · rw [Frame.valAt, Frame.valAt, col_volume_normalized, col_volume_normalized,
      hsps, hsqs, hlen]

/-- C1 counterexample: two ordered three-point series agreeing on timestamps
and on all prices up to row 0, differing only at row 2 > 0, give different
`price_normalized` values at row 0 — the min–max scaling reads the whole
batch, a lookahead. -/
theorem c1_counterexample :
    ([⟨2, 0, "b"⟩, ⟨1, 1, "b"⟩, ⟨4, 2, "b"⟩] : List PricePoint).map
        PricePoint.timestamp
      = ([⟨2, 0, "b"⟩, ⟨1, 1, "b"⟩, ⟨5, 2, "b"⟩] : List PricePoint).map
        PricePoint.timestamp ∧
    (([⟨2, 0, "b"⟩, ⟨1, 1, "b"⟩, ⟨4, 2, "b"⟩] : List PricePoint).map
        PricePoint.price).take 1
      = (([⟨2, 0, "b"⟩, ⟨1, 1, "b"⟩, ⟨5, 2, "b"⟩] : List PricePoint).map
        PricePoint.price).take 1 ∧
    (engineer_all_features [⟨2, 0, "b"⟩, ⟨1, 1, "b"⟩, ⟨4, 2, "b"⟩]).valAt
      "price_normalized" 0 = FV.fin (1 / 3) ∧
    (engineer_all_features [⟨2, 0, "b"⟩, ⟨1, 1, "b"⟩, ⟨5, 2, "b"⟩]).valAt
      "price_normalized" 0 = FV.fin (1 / 4) := by
  refine ⟨?_, ?_, ?_, ?_⟩ <;> decide!

/-- C1 witness: the amended no-lookahead statement instantiated on the same
pair of series at row 0 for a causal column. -/
theorem c1_no_lookahead_witness :
    (engineer_all_features [⟨2, 0, "b"⟩, ⟨1, 1, "b"⟩, ⟨4, 2, "b"⟩]).valAt
        "rolling_mean_5min" 0
      = (engineer_all_features [⟨2, 0, "b"⟩, ⟨1, 1, "b"⟩, ⟨5, 2, "b"⟩]).valAt
        "rolling_mean_5min" 0 :=
  c1_no_lookahead [⟨2, 0, "b"⟩, ⟨1, 1, "b"⟩, ⟨4, 2, "b"⟩]
    [⟨2, 0, "b"⟩, ⟨1, 1, "b"⟩, ⟨5, 2, "b"⟩] 0 "rolling_mean_5min"
    (by decide) (by decide) (by decide!) (by decide) (by decide)

/-! ## C2

Batch/incremental consistency machinery: two series whose last `L` cells
coincide (`tailAgree L`) keep a (shorter) common tail under every transform
with bounded lookback; the exponential moving averages of MACD read the
whole prefix and are the exception. -/

/-- The last `L` cells of the two series coincide. -/
def tailAgree {α : Type} (L : ℕ) (xs ys : List α) : Prop :=
  L ≤ xs.length ∧ L ≤ ys.length ∧
    xs.drop (xs.length - L) = ys.drop (ys.length - L)

lemma getD_drop' {α : Type} (l : List α) (k t : ℕ) (d : α) :
    (l.drop k).getD t d = l.getD (k + t) d := by
  rw [List.getD, List.getD, List.get?_eq_getElem?, List.get?_eq_getElem?,
    List.getElem?_drop]

lemma tailAgree_getD {α : Type} {L : ℕ} {xs ys : List α} (h : tailAgree L xs ys)
    (t : ℕ) (ht : t < L) (d : α) :
    xs.getD (xs.length - L + t) d = ys.getD (ys.length - L + t) d := by
  have hc := congrArg (fun l => List.getD l t d) h.2.2
  simp only at hc
  rw [getD_drop', getD_drop'] at hc
  exact hc

lemma tailAgree_last {α : Type} {L : ℕ} {xs ys : List α} (h : tailAgree L xs ys)
    (hL : 1 ≤ L) (d : α) :
    xs.getD (xs.length - 1) d = ys.getD (ys.length - 1) d := by
  have hc := tailAgree_getD h (L - 1) (by omega) d
  have h1 := h.1
  have h2 := h.2.1
  rw [show xs.length - L + (L - 1) = xs.length - 1 from by omega,
    show ys.length - L + (L - 1) = ys.length - 1 from by omega] at hc
  exact hc

lemma tailAgree_last_at {L : ℕ} {xs ys : List FV} (h : tailAgree L xs ys)
    (hL : 1 ≤ L) (i j : ℕ) (hi : i = xs.length - 1) (hj : j = ys.length - 1)
    (d : FV) : xs.getD i d = ys.getD j d := by
  subst hi
  subst hj
  exact tailAgree_last h hL d

lemma tailAgree_mono {α : Type} {L L' : ℕ} {xs ys : List α}
    (h : tailAgree L xs ys) (hL : L' ≤ L) : tailAgree L' xs ys := by
  have h1 := h.1
  have h2 := h.2.1
  refine ⟨by omega, by omega, ?_⟩
  rw [show xs.length - L' = (xs.length - L) + (L - L') from by omega,
    ← List.drop_drop, h.2.2, List.drop_drop,
    show (ys.length - L) + (L - L') = ys.length - L' from by omega]

lemma tailAgree_map {α β : Type} (g : α → β) {L : ℕ} {xs ys : List α}
    (h : tailAgree L xs ys) : tailAgree L (xs.map g) (ys.map g) := by
  refine ⟨by simpa using h.1, by simpa using h.2.1, ?_⟩
  rw [List.length_map, List.length_map, ← List.map_drop, ← List.map_drop, h.2.2]

lemma tailAgree_zipWith {α β γ : Type} (f : α → β → γ) {L : ℕ}
    {xs ys : List α} {us vs : List β} (h : tailAgree L xs ys)
    (h' : tailAgree L us vs) (hxu : us.length = xs.length)
    (hyv : vs.length = ys.length) :
    tailAgree L (List.zipWith f xs us) (List.zipWith f ys vs) := by
  have h1 := h.1
  have h2 := h.2.1
  refine ⟨by simp [List.length_zipWith, hxu]; omega,
    by simp [List.length_zipWith, hyv]; omega, ?_⟩
  have e : us.drop (xs.length - L) = vs.drop (ys.length - L) := by
    rw [← hxu, ← hyv]
    exact h'.2.2
  rw [show (List.zipWith f xs us).length = xs.length from by
      simp [List.length_zipWith, hxu],
    show (List.zipWith f ys vs).length = ys.length from by
      simp [List.length_zipWith, hyv],
    List.drop_zipWith, List.drop_zipWith, h.2.2, e]

lemma tailAgree_zip {α β : Type} {L : ℕ} {xs ys : List α} {us vs : List β}
    (h : tailAgree L xs ys) (h' : tailAgree L us vs)
    (hxu : us.length = xs.length) (hyv : vs.length = ys.length) :
    tailAgree L (List.zip xs us) (List.zip ys vs) :=
  tailAgree_zipWith Prod.mk h h' hxu hyv

lemma drop_range (n k : ℕ) : (List.range n).drop k = List.range' k (n - k) := by
  apply List.ext_getElem?
  intro i
  rw [List.getElem?_drop]
  by_cases h : k + i < n
  · rw [List.getElem?_range h, List.getElem?_range' _ _ (by omega : i < n - k)]
    simp
  · rw [List.getElem?_eq_none (by simpa using by omega),
      List.getElem?_eq_none (by simp [List.length_range']; omega)]

lemma drop_idxMap (n k : ℕ) (f : ℕ → FV) :
    (idxMap n f).drop k = (List.range (n - k)).map (fun t => f (k + t)) := by
  rw [idxMap, ← List.map_drop, drop_range, List.range'_eq_map_range,
    List.map_map]
  rfl

lemma tailAgree_idxMap (L n m : ℕ) (f g : ℕ → FV) (hLn : L ≤ n) (hLm : L ≤ m)
    (hfg : ∀ t, t < L → f (n - L + t) = g (m - L + t)) :
    tailAgree L (idxMap n f) (idxMap m g) := by
  refine ⟨by rw [length_idxMap]; exact hLn, by rw [length_idxMap]; exact hLm, ?_⟩
  rw [length_idxMap, length_idxMap, drop_idxMap, drop_idxMap,
    show n - (n - L) = L from by omega, show m - (m - L) = L from by omega]
  exact List.map_congr_left (fun t ht => hfg t (List.mem_range.mp ht))

lemma length_shiftL (k : ℕ) (xs : List FV) : (shiftL k xs).length = xs.length := by
  rw [shiftL, length_idxMap]

lemma length_diffL (k : ℕ) (xs : List FV) : (diffL k xs).length = xs.length := by
  rw [diffL, length_idxMap]

lemma length_pctL (k : ℕ) (xs : List FV) : (pctL k xs).length = xs.length := by
  rw [pctL, length_idxMap]

lemma tailAgree_shiftL (k : ℕ) {L : ℕ} {xs ys : List FV} (h : tailAgree L xs ys)
    (hk : k < L) : tailAgree (L - k) (shiftL k xs) (shiftL k ys) := by
  have h1 := h.1
  have h2 := h.2.1
  rw [shiftL, shiftL]
  refine tailAgree_idxMap (L - k) xs.length ys.length _ _ (by omega) (by omega)
    (fun t ht => ?_)
  rw [if_pos (by omega : k ≤ xs.length - (L - k) + t),
    if_pos (by omega : k ≤ ys.length - (L - k) + t),
    show xs.length - (L - k) + t - k = xs.length - L + t from by omega,
    show ys.length - (L - k) + t - k = ys.length - L + t from by omega]
  exact tailAgree_getD h t (by omega) _

lemma tailAgree_diffL (k : ℕ) {L : ℕ} {xs ys : List FV} (h : tailAgree L xs ys)
    (hk : k < L) : tailAgree (L - k) (diffL k xs) (diffL k ys) := by
  have h1 := h.1
  have h2 := h.2.1
  rw [diffL, diffL]
  refine tailAgree_idxMap (L - k) xs.length ys.length _ _ (by omega) (by omega)
    (fun t ht => ?_)
  rw [if_pos (by omega : k ≤ xs.length - (L - k) + t),
    if_pos (by omega : k ≤ ys.length - (L - k) + t),
    show xs.length - (L - k) + t = xs.length - L + (k + t) from by omega,
    show ys.length - (L - k) + t = ys.length - L + (k + t) from by omega,
    tailAgree_getD h (k + t) (by omega) FV.nan,
    show xs.length - L + (k + t) - k = xs.length - L + t from by omega,
    show ys.length - L + (k + t) - k = ys.length - L + t from by omega,
    tailAgree_getD h t (by omega) FV.nan]

lemma tailAgree_pctL (k : ℕ) {L : ℕ} {xs ys : List FV} (h : tailAgree L xs ys)
    (hk : k < L) : tailAgree (L - k) (pctL k xs) (pctL k ys) := by
  have h1 := h.1
  have h2 := h.2.1
  rw [pctL, pctL]
  refine tailAgree_idxMap (L - k) xs.length ys.length _ _ (by omega) (by omega)
    (fun t ht => ?_)
  rw [if_pos (by omega : k ≤ xs.length - (L - k) + t),
    if_pos (by omega : k ≤ ys.length - (L - k) + t),
    show xs.length - (L - k) + t = xs.length - L + (k + t) from by omega,
    show ys.length - (L - k) + t = ys.length - L + (k + t) from by omega,
    tailAgree_getD h (k + t) (by omega) FV.nan,
    show xs.length - L + (k + t) - k = xs.length - L + t from by omega,
    show ys.length - L + (k + t) - k = ys.length - L + t from by omega,
    tailAgree_getD h t (by omega) FV.nan]

lemma tailAgree_rollL (agg : List FV → FV) (w : ℕ) {L : ℕ} {xs ys : List FV}
    (h : tailAgree L xs ys) (hw : 1 ≤ w) (hwL : w ≤ L) :
    tailAgree (L - (w - 1)) (rollL agg w xs) (rollL agg w ys) := by
  have h1 := h.1
  have h2 := h.2.1
  rw [rollL, rollL]
  refine tailAgree_idxMap (L - (w - 1)) xs.length ys.length _ _ (by omega)
    (by omega) (fun t ht => ?_)
  have e1 : windowSlice w xs (xs.length - (L - (w - 1)) + t)
      = (xs.drop ((xs.length - L) + t)).take w := by
    rw [windowSlice, List.drop_take,
      show xs.length - (L - (w - 1)) + t + 1 - w = (xs.length - L) + t from by
        omega,
      show xs.length - (L - (w - 1)) + t + 1 - ((xs.length - L) + t) = w from by
        omega]
  have e2 : windowSlice w ys (ys.length - (L - (w - 1)) + t)
      = (ys.drop ((ys.length - L) + t)).take w := by
    rw [windowSlice, List.drop_take,
      show ys.length - (L - (w - 1)) + t + 1 - w = (ys.length - L) + t from by
        omega,
      show ys.length - (L - (w - 1)) + t + 1 - ((ys.length - L) + t) = w from by
        omega]
  have e3 : xs.drop ((xs.length - L) + t) = ys.drop ((ys.length - L) + t) := by
    rw [← List.drop_drop, ← List.drop_drop, h.2.2]
  rw [e1, e2, e3]

lemma length_rsi (xs : List FV) : (calculate_rsi xs 14).length = xs.length := by
  simp [calculate_rsi, length_rollL, length_diffL]

lemma length_bb_upper (xs : List FV) :
    (calculate_bollinger_bands xs 20 2).bb_upper.length = xs.length := by
  simp [calculate_bollinger_bands, length_rollL]

lemma length_bb_middle (xs : List FV) :
    (calculate_bollinger_bands xs 20 2).bb_middle.length = xs.length := by
  simp [calculate_bollinger_bands, length_rollL]

lemma length_bb_lower (xs : List FV) :
    (calculate_bollinger_bands xs 20 2).bb_lower.length = xs.length := by
  simp [calculate_bollinger_bands, length_rollL]

lemma length_bb_width (xs : List FV) :
    (calculate_bollinger_bands xs 20 2).bb_width.length = xs.length := by
  simp [calculate_bollinger_bands, length_rollL]

lemma length_bb_position (xs : List FV) :
    (calculate_bollinger_bands xs 20 2).bb_position.length = xs.length := by
  simp [calculate_bollinger_bands, length_rollL]

lemma length_atr (xs : List FV) :
    (calculate_atr xs xs xs 14).length = xs.length := by
  simp [calculate_atr, length_rollL, length_shiftL]

lemma length_stoch_k (xs : List FV) :
    (calculate_stochastic xs xs xs 14 3).1.length = xs.length := by
  simp [calculate_stochastic, length_rollL]

lemma length_stoch_d (xs : List FV) :
    (calculate_stochastic xs xs xs 14 3).2.length = xs.length := by
  simp [calculate_stochastic, length_rollL]

lemma tail_rsi {xs ys : List FV} (h : tailAgree 61 xs ys) :
    tailAgree 47 (calculate_rsi xs 14) (calculate_rsi ys 14) := by
  simp only [calculate_rsi]
  have hd : tailAgree 60 (diffL 1 xs) (diffL 1 ys) :=
    tailAgree_mono (tailAgree_diffL 1 h (by norm_num)) (by norm_num)
  exact tailAgree_map _ (tailAgree_zipWith _
    (tailAgree_mono
      (tailAgree_rollL _ 14 (tailAgree_map _ hd) (by norm_num) (by norm_num))
      (by norm_num))
    (tailAgree_mono
      (tailAgree_rollL _ 14 (tailAgree_map _ (tailAgree_map _ hd)) (by norm_num)
        (by norm_num))
      (by norm_num))
    (by simp [length_rollL, length_diffL])
    (by simp [length_rollL, length_diffL]))

lemma tail_bb_S2 {xs ys : List FV} (h : tailAgree 61 xs ys) :
    tailAgree 42 ((rollL stdAgg 20 xs).map (fun s => FV.mul s (FV.fin 2)))
      ((rollL stdAgg 20 ys).map (fun s => FV.mul s (FV.fin 2))) :=
  tailAgree_map _
    (tailAgree_mono (tailAgree_rollL _ 20 h (by norm_num) (by norm_num))
      (by norm_num))

lemma tail_bb_upper {xs ys : List FV} (h : tailAgree 61 xs ys) :
    tailAgree 42 (calculate_bollinger_bands xs 20 2).bb_upper
      (calculate_bollinger_bands ys 20 2).bb_upper := by
  show tailAgree 42 (List.zipWith FV.add (rollL meanAgg 20 xs)
      ((rollL stdAgg 20 xs).map (fun s => FV.mul s (FV.fin 2))))
    (List.zipWith FV.add (rollL meanAgg 20 ys)
      ((rollL stdAgg 20 ys).map (fun s => FV.mul s (FV.fin 2))))
  exact tailAgree_zipWith _
    (tailAgree_mono (tailAgree_rollL _ 20 h (by norm_num) (by norm_num))
      (by norm_num))
    (tail_bb_S2 h)
    (by simp [length_rollL]) (by simp [length_rollL])

lemma tail_bb_lower {xs ys : List FV} (h : tailAgree 61 xs ys) :
    tailAgree 42 (calculate_bollinger_bands xs 20 2).bb_lower
      (calculate_bollinger_bands ys 20 2).bb_lower := by
  show tailAgree 42 (List.zipWith FV.sub (rollL meanAgg 20 xs)
      ((rollL stdAgg 20 xs).map (fun s => FV.mul s (FV.fin 2))))
    (List.zipWith FV.sub (rollL meanAgg 20 ys)
      ((rollL stdAgg 20 ys).map (fun s => FV.mul s (FV.fin 2))))
  exact tailAgree_zipWith _
    (tailAgree_mono (tailAgree_rollL _ 20 h (by norm_num) (by norm_num))
      (by norm_num))
    (tail_bb_S2 h)
    (by simp [length_rollL]) (by simp [length_rollL])

lemma tail_bb_middle {xs ys : List FV} (h : tailAgree 61 xs ys) :
    tailAgree 42 (calculate_bollinger_bands xs 20 2).bb_middle
      (calculate_bollinger_bands ys 20 2).bb_middle := by
  show tailAgree 42 (rollL meanAgg 20 xs) (rollL meanAgg 20 ys)
  exact tailAgree_mono (tailAgree_rollL _ 20 h (by norm_num) (by norm_num))
    (by norm_num)

lemma tail_bb_width {xs ys : List FV} (h : tailAgree 61 xs ys) :
    tailAgree 42 (calculate_bollinger_bands xs 20 2).bb_width
      (calculate_bollinger_bands ys 20 2).bb_width := by
  show tailAgree 42
    (List.zipWith FV.sub (calculate_bollinger_bands xs 20 2).bb_upper
      (calculate_bollinger_bands xs 20 2).bb_lower)
    (List.zipWith FV.sub (calculate_bollinger_bands ys 20 2).bb_upper
      (calculate_bollinger_bands ys 20 2).bb_lower)
  exact tailAgree_zipWith _ (tail_bb_upper h) (tail_bb_lower h)
    (by rw [length_bb_lower, length_bb_upper])
    (by rw [length_bb_lower, length_bb_upper])

lemma tail_bb_position {xs ys : List FV} (h : tailAgree 61 xs ys) :
    tailAgree 42 (calculate_bollinger_bands xs 20 2).bb_position
      (calculate_bollinger_bands ys 20 2).bb_position := by
  show tailAgree 42 ((List.zipWith FV.div
      (List.zipWith FV.sub xs (calculate_bollinger_bands xs 20 2).bb_lower)
      (List.zipWith FV.sub (calculate_bollinger_bands xs 20 2).bb_upper
        (calculate_bollinger_bands xs 20 2).bb_lower)).map (FV.clip 0 1))
    ((List.zipWith FV.div
      (List.zipWith FV.sub ys (calculate_bollinger_bands ys 20 2).bb_lower)
      (List.zipWith FV.sub (calculate_bollinger_bands ys 20 2).bb_upper
        (calculate_bollinger_bands ys 20 2).bb_lower)).map (FV.clip 0 1))
  exact tailAgree_map _ (tailAgree_zipWith _
    (tailAgree_zipWith _ (tailAgree_mono h (by norm_num)) (tail_bb_lower h)
      (by rw [length_bb_lower]) (by rw [length_bb_lower]))
    (tailAgree_zipWith _ (tail_bb_upper h) (tail_bb_lower h)
      (by rw [length_bb_lower, length_bb_upper])
      (by rw [length_bb_lower, length_bb_upper]))
    (by simp [List.length_zipWith, length_bb_lower, length_bb_upper])
    (by simp [List.length_zipWith, length_bb_lower, length_bb_upper]))

lemma tail_atr {xs ys : List FV} (h : tailAgree 61 xs ys) :
    tailAgree 47 (calculate_atr xs xs xs 14) (calculate_atr ys ys ys 14) := by
  simp only [calculate_atr]
  have h60 : tailAgree 60 xs ys := tailAgree_mono h (by norm_num)
  have hs1 : tailAgree 60 (shiftL 1 xs) (shiftL 1 ys) :=
    tailAgree_mono (tailAgree_shiftL 1 h (by norm_num)) (by norm_num)
  have htr2 : tailAgree 60 ((List.zipWith FV.sub xs (shiftL 1 xs)).map FV.fabs)
      ((List.zipWith FV.sub ys (shiftL 1 ys)).map FV.fabs) :=
    tailAgree_map _ (tailAgree_zipWith _ h60 hs1
      (by rw [length_shiftL]) (by rw [length_shiftL]))
  exact tailAgree_mono
    (tailAgree_rollL _ 14
      (tailAgree_zipWith _
        (tailAgree_zip (tailAgree_zipWith _ h60 h60 rfl rfl) htr2
          (by simp [List.length_zipWith, length_shiftL])
          (by simp [List.length_zipWith, length_shiftL]))
        htr2
        (by simp [List.length_zip, List.length_zipWith, length_shiftL])
        (by simp [List.length_zip, List.length_zipWith, length_shiftL]))
      (by norm_num) (by norm_num))
    (by norm_num)

lemma tail_stoch_k {xs ys : List FV} (h : tailAgree 61 xs ys) :
    tailAgree 48 (calculate_stochastic xs xs xs 14 3).1
      (calculate_stochastic ys ys ys 14 3).1 := by
  show tailAgree 48 ((List.zipWith FV.div
      (List.zipWith FV.sub xs (rollL minAgg 14 xs))
      (List.zipWith FV.sub (rollL maxAgg 14 xs) (rollL minAgg 14 xs))).map
        (fun v => FV.mul (FV.fin 100) v))
    ((List.zipWith FV.div
      (List.zipWith FV.sub ys (rollL minAgg 14 ys))
      (List.zipWith FV.sub (rollL maxAgg 14 ys) (rollL minAgg 14 ys))).map
        (fun v => FV.mul (FV.fin 100) v))
  have hlo : tailAgree 48 (rollL minAgg 14 xs) (rollL minAgg 14 ys) :=
    tailAgree_rollL _ 14 h (by norm_num) (by norm_num)
  have hhi : tailAgree 48 (rollL maxAgg 14 xs) (rollL maxAgg 14 ys) :=
    tailAgree_rollL _ 14 h (by norm_num) (by norm_num)
  exact tailAgree_map _ (tailAgree_zipWith _
    (tailAgree_zipWith _ (tailAgree_mono h (by norm_num)) hlo
      (by rw [length_rollL]) (by rw [length_rollL]))
    (tailAgree_zipWith _ hhi hlo (by rw [length_rollL, length_rollL])
      (by rw [length_rollL, length_rollL]))
    (by simp [List.length_zipWith, length_rollL])
    (by simp [List.length_zipWith, length_rollL]))

lemma tail_stoch_d {xs ys : List FV} (h : tailAgree 61 xs ys) :
    tailAgree 46 (calculate_stochastic xs xs xs 14 3).2
      (calculate_stochastic ys ys ys 14 3).2 := by
  show tailAgree 46 (rollL meanAgg 3 (calculate_stochastic xs xs xs 14 3).1)
    (rollL meanAgg 3 (calculate_stochastic ys ys ys 14 3).1)
  exact tailAgree_mono
    (tailAgree_rollL _ 3 (tail_stoch_k h) (by norm_num) (by norm_num))
    (by norm_num)

/-- C2 as amended: for a timestamp-ordered history `H` of at least 101 points,
incrementally enriching the last point against the stored prefix
(`enrich_single_record`, which reads only the 100 most recent stored points)
agrees with the batch pipeline's last row for every feature column except
`price_normalized` (batch-relative scaling) and the three MACD columns
(exponential moving averages read the whole prefix, and the incremental path
truncates it to 100 points — see `c2_counterexample`). -/
theorem c2_batch_incremental (H : List PricePoint) (c : String) (hne : H ≠ [])
    (hlen : 101 ≤ H.length) (hsort : List.Sorted tsLe H)
    (hc : c ∈ get_feature_columns) (hn1 : c ≠ "price_normalized")
    (hn2 : c ≠ "macd_line") (hn3 : c ≠ "macd_signal")
    (hn4 : c ≠ "macd_histogram") :
    (enrich_single_record H.dropLast (H.getLast hne).price
        (H.getLast hne).timestamp (H.getLast hne).source).map
      (fun r => r.feats c)
      = some ((engineer_all_features H).valAt c (H.length - 1)) := by
  have htblen : H.dropLast.length = H.length - 1 := List.length_dropLast H
  have hsorttbl : List.Sorted tsLe H.dropLast :=
    List.Pairwise.sublist (List.dropLast_sublist H) hsort
  have hst : sortByTimestamp H.dropLast = H.dropLast := hsorttbl.insertionSort_eq
  have hsH : sortByTimestamp H = H := hsort.insertionSort_eq
  have hwin : (H.dropLast.reverse.take 100).reverse
      = H.dropLast.drop (H.dropLast.length - 100) := by
    have h1 : (H.dropLast.drop (H.dropLast.length - 100)).reverse
        = H.dropLast.reverse.take
            (H.dropLast.length - (H.dropLast.length - 100)) := List.reverse_drop
    rw [show H.dropLast.length - (H.dropLast.length - 100) = 100 from by omega]
      at h1
    rw [← h1, List.reverse_reverse]
  have hqe : ((sortByTimestamp H.dropLast).reverse.take 100).isEmpty = false := by
    rw [List.isEmpty_eq_false, hst]
    intro hnil
    rcases List.take_eq_nil_iff.mp hnil with h100 | hrev
    · exact absurd h100 (by norm_num)
    · rw [List.reverse_eq_nil_iff.mp hrev] at htblen
      simp at htblen
      omega
  have hdata : ((sortByTimestamp H.dropLast).reverse.take 100).reverse
      ++ [H.getLast hne] = H.drop (H.length - 101) := by
    have hHsplit : H.dropLast ++ [H.getLast hne] = H :=
      List.dropLast_append_getLast hne
    have hdrop : H.dropLast.drop (H.length - 101) ++ [H.getLast hne]
        = H.drop (H.length - 101) := by
      rw [← List.drop_append_of_le_length
        (by omega : H.length - 101 ≤ H.dropLast.length), hHsplit]
    rw [hst, hwin, show H.dropLast.length - 100 = H.length - 101 from by omega,
      hdrop]
  have hsortdata : List.Sorted tsLe (H.drop (H.length - 101)) :=
    List.Pairwise.sublist (List.drop_sublist _ _) hsort
  have hsD : sortByTimestamp (H.drop (H.length - 101)) = H.drop (H.length - 101) :=
    hsortdata.insertionSort_eq
  have henrich : enrich_single_record H.dropLast (H.getLast hne).price
      (H.getLast hne).timestamp (H.getLast hne).source
      = some (prepare_enriched_record
          (engineer_all_features (H.drop (H.length - 101)))
          ((engineer_all_features (H.drop (H.length - 101))).rows.length - 1)) := by
    simp only [enrich_single_record, hqe, Bool.false_eq_true, if_false]
    rw [show (⟨(H.getLast hne).price, (H.getLast hne).timestamp,
        (H.getLast hne).source⟩ : PricePoint) = H.getLast hne from rfl, hdata]
  have hrlD : (engineer_all_features (H.drop (H.length - 101))).rows.length
      = 101 := by
    rw [rows_engineer, hsD, List.length_drop]
    omega
  have hfpD : framePrices (H.drop (H.length - 101))
      = (H.map (fun p => FV.fin p.price)).drop (H.length - 101) := by
    rw [framePrices, hsD, List.map_drop]
  have hfpH : framePrices H = H.map (fun p => FV.fin p.price) := by
    rw [framePrices, hsH]
  have hftD : frameTimes (H.drop (H.length - 101))
      = (H.map (fun p => p.timestamp)).drop (H.length - 101) := by
    rw [frameTimes, hsD, List.map_drop]
  have hftH : frameTimes H = H.map (fun p => p.timestamp) := by
    rw [frameTimes, hsH]
  have hP : tailAgree 61 (framePrices (H.drop (H.length - 101)))
      (framePrices H) := by
    refine ⟨?_, ?_, ?_⟩
    · rw [hfpD, List.length_drop, List.length_map]
      omega
    · rw [hfpH, List.length_map]
      omega
    · rw [hfpD, hfpH, List.length_drop, List.length_map, List.drop_drop,
        show (H.length - 101) + (H.length - (H.length - 101) - 61)
          = H.length - 61 from by omega]
  have hT : tailAgree 61 (frameTimes (H.drop (H.length - 101)))
      (frameTimes H) := by
    refine ⟨?_, ?_, ?_⟩
    · rw [hftD, List.length_drop, List.length_map]
      omega
    · rw [hftH, List.length_map]
      omega
    · rw [hftD, hftH, List.length_drop, List.length_map, List.drop_drop,
        show (H.length - 101) + (H.length - (H.length - 101) - 61)
          = H.length - 61 from by omega]
  have hlfD : (framePrices (H.drop (H.length - 101))).length
      = (engineer_all_features (H.drop (H.length - 101))).rows.length := by
    rw [framePrices, List.length_map, rows_engineer]
  have hlfH : (framePrices H).length = H.length := by
    rw [hfpH, List.length_map]
  have hltD : (frameTimes (H.drop (H.length - 101))).length
      = (engineer_all_features (H.drop (H.length - 101))).rows.length := by
    rw [frameTimes, List.length_map, rows_engineer]
  have hltH : (frameTimes H).length = H.length := by
    rw [hftH, List.length_map]
  rw [henrich, Option.map_some']
  refine congrArg some ?_
  show (engineer_all_features (H.drop (H.length - 101))).valAt c
      ((engineer_all_features (H.drop (H.length - 101))).rows.length - 1)
    = (engineer_all_features H).valAt c (H.length - 1)
  simp only [get_feature_columns, List.mem_cons, List.not_mem_nil, or_false] at hc
  rcases hc with rfl | rfl | rfl | rfl | rfl | rfl | rfl | rfl | rfl | rfl | rfl |
    rfl | rfl | rfl | rfl | rfl | rfl | rfl | rfl | rfl | rfl | rfl | rfl | rfl |
    rfl | rfl | rfl | rfl | rfl | rfl | rfl | rfl | rfl | rfl | rfl | rfl | rfl |
    rfl | rfl | rfl | rfl | rfl | rfl
  · rw [Frame.valAt, Frame.valAt, col_minute_of_hour, col_minute_of_hour]
    exact tailAgree_last_at (tailAgree_map _ hT) (by norm_num) _ _
      (by rw [List.length_map, hltD]) (by rw [List.length_map, hltH]) _
  · rw [Frame.valAt, Frame.valAt, col_hour_of_day, col_hour_of_day]
    exact tailAgree_last_at (tailAgree_map _ hT) (by norm_num) _ _
      (by rw [List.length_map, hltD]) (by rw [List.length_map, hltH]) _
  · rw [Frame.valAt, Frame.valAt, col_day_of_week, col_day_of_week]
    exact tailAgree_last_at (tailAgree_map _ hT) (by norm_num) _ _
      (by rw [List.length_map, hltD]) (by rw [List.length_map, hltH]) _
  · rw [Frame.valAt, Frame.valAt, col_week_of_year, col_week_of_year]
    exact tailAgree_last_at (tailAgree_map _ hT) (by norm_num) _ _
      (by rw [List.length_map, hltD]) (by rw [List.length_map, hltH]) _
  · rw [Frame.valAt, Frame.valAt, col_price_lag_1min, col_price_lag_1min]
    exact tailAgree_last_at (tailAgree_shiftL 1 hP (by norm_num)) (by norm_num)
      _ _ (by rw [length_shiftL, hlfD]) (by rw [length_shiftL, hlfH]) _
  · rw [Frame.valAt, Frame.valAt, col_price_lag_5min, col_price_lag_5min]
    exact tailAgree_last_at (tailAgree_shiftL 5 hP (by norm_num)) (by norm_num)
      _ _ (by rw [length_shiftL, hlfD]) (by rw [length_shiftL, hlfH]) _
  · rw [Frame.valAt, Frame.valAt, col_price_lag_15min, col_price_lag_15min]
    exact tailAgree_last_at (tailAgree_shiftL 15 hP (by norm_num)) (by norm_num)
      _ _ (by rw [length_shiftL, hlfD]) (by rw [length_shiftL, hlfH]) _
  · rw [Frame.valAt, Frame.valAt, col_price_lag_30min, col_price_lag_30min]
    exact tailAgree_last_at (tailAgree_shiftL 30 hP (by norm_num)) (by norm_num)
      _ _ (by rw [length_shiftL, hlfD]) (by rw [length_shiftL, hlfH]) _
  · rw [Frame.valAt, Frame.valAt, col_price_lag_60min, col_price_lag_60min]
    exact tailAgree_last_at (tailAgree_shiftL 60 hP (by norm_num)) (by norm_num)
      _ _ (by rw [length_shiftL, hlfD]) (by rw [length_shiftL, hlfH]) _
  · rw [Frame.valAt, Frame.valAt, col_rolling_mean_5min, col_rolling_mean_5min]
    exact tailAgree_last_at (tailAgree_rollL _ 5 hP (by norm_num) (by norm_num))
      (by norm_num) _ _ (by rw [length_rollL, hlfD]) (by rw [length_rollL, hlfH]) _
  · rw [Frame.valAt, Frame.valAt, col_rolling_mean_15min, col_rolling_mean_15min]
    exact tailAgree_last_at (tailAgree_rollL _ 15 hP (by norm_num) (by norm_num))
      (by norm_num) _ _ (by rw [length_rollL, hlfD]) (by rw [length_rollL, hlfH]) _
  · rw [Frame.valAt, Frame.valAt, col_rolling_mean_30min, col_rolling_mean_30min]
    exact tailAgree_last_at (tailAgree_rollL _ 30 hP (by norm_num) (by norm_num))
      (by norm_num) _ _ (by rw [length_rollL, hlfD]) (by rw [length_rollL, hlfH]) _
  · rw [Frame.valAt, Frame.valAt, col_rolling_mean_60min, col_rolling_mean_60min]
    exact tailAgree_last_at (tailAgree_rollL _ 60 hP (by norm_num) (by norm_num))
      (by norm_num) _ _ (by rw [length_rollL, hlfD]) (by rw [length_rollL, hlfH]) _
  · rw [Frame.valAt, Frame.valAt, col_rolling_std_5min, col_rolling_std_5min]
    exact tailAgree_last_at (tailAgree_rollL _ 5 hP (by norm_num) (by norm_num))
      (by norm_num) _ _ (by rw [length_rollL, hlfD]) (by rw [length_rollL, hlfH]) _
  · rw [Frame.valAt, Frame.valAt, col_rolling_std_15min, col_rolling_std_15min]
    exact tailAgree_last_at (tailAgree_rollL _ 15 hP (by norm_num) (by norm_num))
      (by norm_num) _ _ (by rw [length_rollL, hlfD]) (by rw [length_rollL, hlfH]) _
  · rw [Frame.valAt, Frame.valAt, col_rolling_std_30min, col_rolling_std_30min]
    exact tailAgree_last_at (tailAgree_rollL _ 30 hP (by norm_num) (by norm_num))
      (by norm_num) _ _ (by rw [length_rollL, hlfD]) (by rw [length_rollL, hlfH]) _
  · rw [Frame.valAt, Frame.valAt, col_rolling_std_60min, col_rolling_std_60min]
    exact tailAgree_last_at (tailAgree_rollL _ 60 hP (by norm_num) (by norm_num))
      (by norm_num) _ _ (by rw [length_rollL, hlfD]) (by rw [length_rollL, hlfH]) _
  · rw [Frame.valAt, Frame.valAt, col_rolling_min_30min, col_rolling_min_30min]
    exact tailAgree_last_at (tailAgree_rollL _ 30 hP (by norm_num) (by norm_num))
      (by norm_num) _ _ (by rw [length_rollL, hlfD]) (by rw [length_rollL, hlfH]) _
  · rw [Frame.valAt, Frame.valAt, col_rolling_max_30min, col_rolling_max_30min]
    exact tailAgree_last_at (tailAgree_rollL _ 30 hP (by norm_num) (by norm_num))
      (by norm_num) _ _ (by rw [length_rollL, hlfD]) (by rw [length_rollL, hlfH]) _
  · rw [Frame.valAt, Frame.valAt, col_rsi_14, col_rsi_14]
    exact tailAgree_last_at (tail_rsi hP) (by norm_num) _ _
      (by rw [length_rsi, hlfD]) (by rw [length_rsi, hlfH]) _
  · exact absurd rfl hn2
  · exact absurd rfl hn3
  · exact absurd rfl hn4
  · rw [Frame.valAt, Frame.valAt, col_bb_upper, col_bb_upper]
    exact tailAgree_last_at (tail_bb_upper hP) (by norm_num) _ _
      (by rw [length_bb_upper, hlfD]) (by rw [length_bb_upper, hlfH]) _
  · rw [Frame.valAt, Frame.valAt, col_bb_middle, col_bb_middle]
    exact tailAgree_last_at (tail_bb_middle hP) (by norm_num) _ _
      (by rw [length_bb_middle, hlfD]) (by rw [length_bb_middle, hlfH]) _
  · rw [Frame.valAt, Frame.valAt, col_bb_lower, col_bb_lower]
    exact tailAgree_last_at (tail_bb_lower hP) (by norm_num) _ _
      (by rw [length_bb_lower, hlfD]) (by rw [length_bb_lower, hlfH]) _
  · rw [Frame.valAt, Frame.valAt, col_bb_width, col_bb_width]
    exact tailAgree_last_at (tail_bb_width hP) (by norm_num) _ _
      (by rw [length_bb_width, hlfD]) (by rw [length_bb_width, hlfH]) _
  · rw [Frame.valAt, Frame.valAt, col_bb_position, col_bb_position]
    exact tailAgree_last_at (tail_bb_position hP) (by norm_num) _ _
      (by rw [length_bb_position, hlfD]) (by rw [length_bb_position, hlfH]) _
  · rw [Frame.valAt, Frame.valAt, col_atr_14, col_atr_14]
    exact tailAgree_last_at (tail_atr hP) (by norm_num) _ _
      (by rw [length_atr, hlfD]) (by rw [length_atr, hlfH]) _
  · rw [Frame.valAt, Frame.valAt, col_stoch_k, col_stoch_k]
    exact tailAgree_last_at (tail_stoch_k hP) (by norm_num) _ _
      (by rw [length_stoch_k, hlfD]) (by rw [length_stoch_k, hlfH]) _
  · rw [Frame.valAt, Frame.valAt, col_stoch_d, col_stoch_d]
    exact tailAgree_last_at (tail_stoch_d hP) (by norm_num) _ _
      (by rw [length_stoch_d, hlfD]) (by rw [length_stoch_d, hlfH]) _
  · rw [Frame.valAt, Frame.valAt, col_price_change_1min, col_price_change_1min]
    exact tailAgree_last_at (tailAgree_diffL 1 hP (by norm_num)) (by norm_num)
      _ _ (by rw [length_diffL, hlfD]) (by rw [length_diffL, hlfH]) _
  · rw [Frame.valAt, Frame.valAt, col_price_change_5min, col_price_change_5min]
    exact tailAgree_last_at (tailAgree_diffL 5 hP (by norm_num)) (by norm_num)
      _ _ (by rw [length_diffL, hlfD]) (by rw [length_diffL, hlfH]) _
  · rw [Frame.valAt, Frame.valAt, col_price_change_15min, col_price_change_15min]
    exact tailAgree_last_at (tailAgree_diffL 15 hP (by norm_num)) (by norm_num)
      _ _ (by rw [length_diffL, hlfD]) (by rw [length_diffL, hlfH]) _
  · rw [Frame.valAt, Frame.valAt, col_price_change_pct_1min,
      col_price_change_pct_1min]
    exact tailAgree_last_at (tailAgree_pctL 1 hP (by norm_num)) (by norm_num)
      _ _ (by rw [length_pctL, hlfD]) (by rw [length_pctL, hlfH]) _
  · rw [Frame.valAt, Frame.valAt, col_price_change_pct_5min,
      col_price_change_pct_5min]
    exact tailAgree_last_at (tailAgree_pctL 5 hP (by norm_num)) (by norm_num)
      _ _ (by rw [length_pctL, hlfD]) (by rw [length_pctL, hlfH]) _
  · rw [Frame.valAt, Frame.valAt, col_price_change_pct_15min,
      col_price_change_pct_15min]
    exact tailAgree_last_at (tailAgree_pctL 15 hP (by norm_num)) (by norm_num)
      _ _ (by rw [length_pctL, hlfD]) (by rw [length_pctL, hlfH]) _
  · rw [Frame.valAt, Frame.valAt, col_volatility_30min, col_volatility_30min]
    exact tailAgree_last_at (tailAgree_rollL _ 30 hP (by norm_num) (by norm_num))
      (by norm_num) _ _ (by rw [length_rollL, hlfD]) (by rw [length_rollL, hlfH]) _
  · rw [Frame.valAt, Frame.valAt, col_momentum_5min, col_momentum_5min]
    exact tailAgree_last_at
      (tailAgree_zipWith _ (tailAgree_mono hP (by norm_num))
        (tailAgree_shiftL 5 hP (by norm_num)) (length_shiftL 5 _)
        (length_shiftL 5 _))
      (by norm_num) _ _
      (by simp [List.length_zipWith, length_shiftL, hlfD])
      (by simp [List.length_zipWith, length_shiftL, hlfH]) _
  · rw [Frame.valAt, Frame.valAt, col_momentum_15min, col_momentum_15min]
    exact tailAgree_last_at
      (tailAgree_zipWith _ (tailAgree_mono hP (by norm_num))
        (tailAgree_shiftL 15 hP (by norm_num)) (length_shiftL 15 _)
        (length_shiftL 15 _))
      (by norm_num) _ _
      (by simp [List.length_zipWith, length_shiftL, hlfD])
      (by simp [List.length_zipWith, length_shiftL, hlfH]) _
  · rw [Frame.valAt, Frame.valAt, col_momentum_30min, col_momentum_30min]
    exact tailAgree_last_at
      (tailAgree_zipWith _ (tailAgree_mono hP (by norm_num))
        (tailAgree_shiftL 30 hP (by norm_num)) (length_shiftL 30 _)
        (length_shiftL 30 _))
      (by norm_num) _ _
      (by simp [List.length_zipWith, length_shiftL, hlfD])
      (by simp [List.length_zipWith, length_shiftL, hlfH]) _
  · exact absurd rfl hn1
  · have hv1 : (List.replicate
        (sortByTimestamp (H.drop (H.length - 101))).length (FV.fin 0)).getD
        ((engineer_all_features (H.drop (H.length - 101))).rows.length - 1)
        FV.nan = FV.fin 0 :=
      getD_replicate _ _ _ _ (by rw [← rows_engineer, hrlD]; omega)
    have hv2 : (List.replicate (sortByTimestamp H).length (FV.fin 0)).getD
        (H.length - 1) FV.nan = FV.fin 0 :=
      getD_replicate _ _ _ _ (by rw [hsH]; omega)
    rw [Frame.valAt, Frame.valAt, col_volume_normalized, col_volume_normalized,
      hv1, hv2]

/-- C2 counterexample: for a 120-point ordered history whose first 19 prices
are 1 000 000 and the rest 100, incrementally enriching the last point (the
stored table is the first 119 points, of which only the 100 most recent are
read — all with price 100) gives a `macd_line` that differs from the batch
pipeline's last row by more than 1: the exponential moving averages depend on
the truncated prefix, so batch and incremental MACD values disagree. -/
theorem c2_counterexample :
    (((List.range 120).map
        (fun k => (⟨if k < 19 then 1000000 else 100, k, "b"⟩ : PricePoint))).dropLast
      = (List.range 119).map
        (fun k => (⟨if k < 19 then 1000000 else 100, k, "b"⟩ : PricePoint))) ∧
    FV.ltB (FV.fin 1) (FV.fabs (FV.sub
      (((enrich_single_record
        ((List.range 119).map
          (fun k => (⟨if k < 19 then 1000000 else 100, k, "b"⟩ : PricePoint)))
        100 119 "b").getD default).feats "macd_line")
      ((engineer_all_features
        ((List.range 120).map
          (fun k => (⟨if k < 19 then 1000000 else 100, k, "b"⟩ : PricePoint)))).valAt
        "macd_line" 119))) = true := by
  constructor
  · decide!
  · decide!

/-- C2 witness: the amended batch/incremental agreement instantiated on a
constant 120-point series for the `rsi_14` column. -/
theorem c2_batch_incremental_witness :
    (enrich_single_record ((List.range 120).map
        (fun k => (⟨100, k, "b"⟩ : PricePoint))).dropLast 100 119 "b").map
      (fun r => r.feats "rsi_14")
      = some ((engineer_all_features ((List.range 120).map
          (fun k => (⟨100, k, "b"⟩ : PricePoint)))).valAt "rsi_14" 119) :=
  c2_batch_incremental ((List.range 120).map
      (fun k => (⟨100, k, "b"⟩ : PricePoint))) "rsi_14" (by decide) (by decide)
    (by decide) (by decide) (by decide) (by decide) (by decide) (by decide)

end BtcSpec
